import Mathlib

/-!
Verification of the btcv25 trading-bot runtime against its specification.

The Python sources under src/ are shallowly embedded: pure functions become
Lean functions over ℚ (exact rationals in place of floats), stateful methods
become explicit state-passing functions, and fallible venue calls are
modelled by explicit result types.  Each embedded definition mirrors one
Python function and is named after it where Lean allows.
-/

set_option maxRecDepth 10000

namespace Btcv25

/-! ## Shared numeric helpers -/

/-- Python round(x, n): round half to even at n decimal places (the float
representation noise of CPython round is not modelled; all values compared
in this development are exact). -/
def roundHalfEven (q : ℚ) : ℤ :=
  let f := ⌊q⌋
  let r := q - f
  if r < 1/2 then f
  else if 1/2 < r then f + 1
  else if f % 2 = 0 then f else f + 1

/-- Round to n decimal places, half to even (Python round(x, n)). -/
def roundTo (n : ℕ) (q : ℚ) : ℚ :=
  (roundHalfEven (q * (10 : ℚ) ^ n) : ℚ) / (10 : ℚ) ^ n

/-- Python round(x, 2) — money rounded to cents. -/
def round2 (q : ℚ) : ℚ := roundTo 2 q

theorem roundHalfEven_nonneg (q : ℚ) (hq : 0 ≤ q) : 0 ≤ roundHalfEven q := by
  unfold roundHalfEven
  have hf : (0 : ℤ) ≤ ⌊q⌋ ∨ ⌊q⌋ = -1 ∨ ⌊q⌋ < -1 := by omega
  have hfl : (0 : ℤ) ≤ ⌊q⌋ := by
    by_contra hneg
    push_neg at hneg
    have : q < 0 := by
      have := Int.lt_iff_add_one_le.mp hneg
      have h2 : (⌊q⌋ : ℚ) + 1 ≤ 0 := by exact_mod_cast Int.add_one_le_iff.mpr hneg
      have h3 : q < ⌊q⌋ + 1 := Int.lt_floor_add_one q
      linarith
    linarith
  dsimp only
  split_ifs <;> omega

theorem roundTo_nonneg (n : ℕ) (q : ℚ) (hq : 0 ≤ q) : 0 ≤ roundTo n q := by
  unfold roundTo
  have h1 : (0:ℚ) ≤ q * (10 : ℚ) ^ n := by positivity
  have h2 := roundHalfEven_nonneg _ h1
  have h3 : (0:ℚ) ≤ (roundHalfEven (q * (10 : ℚ) ^ n) : ℚ) := by exact_mod_cast h2
  positivity

/-! ## Risk Manager (src/core/risk_manager.py)

DailyStats mirrors the dataclass field for field; RMState bundles the
RiskManager instance attributes that the embedded methods touch. -/

structure RiskConfig where
  max_trade_pct : ℚ
  max_daily_trades : ℕ
  max_daily_loss_pct : ℚ
  max_consecutive_losses : ℕ
  loss_streak_cooldown_mins : ℚ
  kelly_fraction : ℚ
  min_trade_size_usd : ℚ
  max_trade_size_usd : ℚ
deriving DecidableEq, Repr

/-- Defaults from config/settings.py RiskConfig. -/
def defaultRiskConfig : RiskConfig :=
  { max_trade_pct := 5, max_daily_trades := 20, max_daily_loss_pct := 25,
    max_consecutive_losses := 5, loss_streak_cooldown_mins := 60,
    kelly_fraction := 1/4, min_trade_size_usd := 1, max_trade_size_usd := 25 }

structure DailyStats where
  date : String
  trades : ℕ
  wins : ℕ
  losses : ℕ
  total_pnl : ℚ
  consecutive_losses : ℕ
  last_trade_time : ℚ
  cooldown_until : ℚ
  start_of_day_capital : ℚ
  late_window_trades : ℕ
  late_window_pnl : ℚ
  late_window_spent : ℚ
  trades_5m : ℕ
  wins_5m : ℕ
  losses_5m : ℕ
  pnl_5m : ℚ
  spent_5m : ℚ
  consecutive_losses_5m : ℕ
  cooldown_until_5m : ℚ
deriving DecidableEq, Repr

/-- DailyStats(date=..., start_of_day_capital=...) with all defaulted fields. -/
def DailyStats.fresh (date : String) (capital : ℚ) : DailyStats :=
  ⟨date, 0, 0, 0, 0, 0, 0, 0, capital, 0, 0, 0, 0, 0, 0, 0, 0, 0, 0⟩

structure RMState where
  capital : ℚ
  total_pnl : ℚ
  daily : DailyStats
deriving DecidableEq, Repr

/-- RiskManager._reset_daily_if_needed; `today` is the current UTC date string. -/
def resetDailyIfNeeded (today : String) (st : RMState) : RMState :=
  if st.daily.date ≠ today then { st with daily := DailyStats.fresh today st.capital }
  else st

/-- Reference capital for the daily-loss breaker:
start_of_day_capital or capital (Python `or`: 0.0 is falsy). -/
def lossReference (st : RMState) : ℚ :=
  if st.daily.start_of_day_capital = 0 then st.capital else st.daily.start_of_day_capital

/-- RiskManager.can_trade, returning the post-call state (the loss-streak
branch writes cooldown_until) together with (bool, reason). -/
def canTrade (cfg : RiskConfig) (now : ℚ) (today : String) (st : RMState) :
    RMState × Bool × String :=
  let st := resetDailyIfNeeded today st
  if now < st.daily.cooldown_until then (st, false, "Cooldown")
  else if cfg.max_daily_trades ≤ st.daily.trades then (st, false, "Daily limit")
  else if 0 < st.capital ∧
      cfg.max_daily_loss_pct ≤ |min 0 st.daily.total_pnl| / lossReference st * 100 then
    (st, false, "Daily loss limit")
  else if cfg.max_consecutive_losses ≤ st.daily.consecutive_losses then
    ({ st with daily := { st.daily with
        cooldown_until := now + cfg.loss_streak_cooldown_mins * 60 } },
      false, "Loss streak")
  else if st.capital ≤ 0 then (st, false, "No capital")
  else (st, true, "OK")

/-- RiskManager.calculate_position_size. -/
def calculate_position_size (cfg : RiskConfig) (capital : ℚ) (confidence : ℚ) : ℚ :=
  if capital ≤ 0 then 0
  else
    let kelly := max 0 (2 * confidence - 1)
    let fractional_kelly := kelly * cfg.kelly_fraction
    let size := capital * fractional_kelly
    let size := min size (capital * (cfg.max_trade_pct / 100))
    let size := min size cfg.max_trade_size_usd
    let size := max size cfg.min_trade_size_usd
    let size := min size capital
    round2 size

/-- Position size as the claim words it: the Kelly size clamped to
[min_trade, max_trade], then to capital·max_trade_pct/100, then to capital,
rounded to cents (the clamps applied in the order the claim lists them). -/
def positionSizeClaim (cfg : RiskConfig) (capital : ℚ) (confidence : ℚ) : ℚ :=
  if capital ≤ 0 then 0
  else
    let size := capital * max 0 (2 * confidence - 1) * cfg.kelly_fraction
    let size := min (max size cfg.min_trade_size_usd) cfg.max_trade_size_usd
    let size := min size (capital * (cfg.max_trade_pct / 100))
    let size := min size capital
    round2 size

/-- Position size as the code actually orders the clamps: the pct-of-capital
cap and the max-trade cap are applied first, then the min-trade floor (which
can therefore override both caps), then the capital cap. -/
def positionSizeAmended (cfg : RiskConfig) (capital : ℚ) (confidence : ℚ) : ℚ :=
  if capital ≤ 0 then 0
  else
    round2 (min
      (max
        (min (capital * max 0 (2 * confidence - 1) * cfg.kelly_fraction)
          (min (capital * (cfg.max_trade_pct / 100)) cfg.max_trade_size_usd))
        cfg.min_trade_size_usd)
      capital)

/-- RiskManager.record_trade as a state transition (logging elided). -/
def recordTrade (cfg : RiskConfig) (now : ℚ) (today : String) (pnl : ℚ)
    (st : RMState) : RMState :=
  let st := resetDailyIfNeeded today st
  let st := { st with
    daily := { st.daily with
      trades := st.daily.trades + 1,
      total_pnl := st.daily.total_pnl + pnl,
      last_trade_time := now },
    total_pnl := st.total_pnl + pnl,
    capital := st.capital + pnl }
  if 0 ≤ pnl then
    { st with daily := { st.daily with wins := st.daily.wins + 1, consecutive_losses := 0 } }
  else
    let _ := cfg.max_consecutive_losses
    { st with daily := { st.daily with
        losses := st.daily.losses + 1,
        consecutive_losses := st.daily.consecutive_losses + 1 } }

end Btcv25

namespace Btcv25

/-- C3 counterexample: with the default config, capital 10 and confidence 0.5,
the code returns $1 (the min-trade floor overrides the 5-pct-of-capital cap,
because the floor is applied after that cap), while the formula as the claim
states it — Kelly size clamped to [min_trade, max_trade], then to
capital·max_trade_pct/100, then to capital — yields $0.50. -/
theorem position_size_cx :
    calculate_position_size defaultRiskConfig 10 (1/2) = 1
    ∧ positionSizeClaim defaultRiskConfig 10 (1/2) = 1/2
    ∧ (1 : ℚ) ≠ 1/2 := by
  refine ⟨?_, ?_, by norm_num⟩ <;>
    norm_num [calculate_position_size, positionSizeClaim, defaultRiskConfig,
      round2, roundTo, roundHalfEven, min_def, max_def]

/-- C3 (amended): calculate_position_size equals the Kelly size with the
pct-of-capital cap and max-trade cap applied first, then the min-trade floor,
then the capital cap, rounded to cents; with the spec scenario (capital 500,
confidence 0.85, defaults) the result is 25; for capital ≤ 0 it is 0. -/
theorem position_size_amended_ok (cfg : RiskConfig) (capital confidence : ℚ) :
    calculate_position_size cfg capital confidence
      = positionSizeAmended cfg capital confidence
    ∧ calculate_position_size defaultRiskConfig 500 (17/20) = 25
    ∧ (capital ≤ 0 → calculate_position_size cfg capital confidence = 0) := by
  refine ⟨?_, ?_, ?_⟩
  · simp only [calculate_position_size, positionSizeAmended]
    split_ifs with h
    · rfl
    · rw [min_assoc, ← mul_assoc]
  · norm_num [calculate_position_size, defaultRiskConfig, round2, roundTo,
      roundHalfEven, min_def, max_def]
  · intro h
    simp [calculate_position_size, h]

/-- Witness for position_size_amended_ok: instantiated at the spec scenario
and at a negative capital. -/
theorem position_size_amended_ok_witness :
    calculate_position_size defaultRiskConfig 500 (17/20)
      = positionSizeAmended defaultRiskConfig 500 (17/20)
    ∧ ((-3 : ℚ) ≤ 0 ∧ calculate_position_size defaultRiskConfig (-3) (7/10) = 0) :=
  ⟨(position_size_amended_ok defaultRiskConfig 500 (17/20)).1,
    by norm_num,
    (position_size_amended_ok defaultRiskConfig (-3) (7/10)).2.2 (by norm_num)⟩

/-- Concrete pre-rollover risk state: stored date differs from today. -/
def rollSt : RMState :=
  { capital := 500, total_pnl := 3,
    daily := { DailyStats.fresh "2026-10-11" 400 with
      trades := 7, wins := 4, losses := 3, total_pnl := -12,
      consecutive_losses := 2, spent_5m := 30 } }

/-- C9: when the stored DailyStats date differs from today, the rollover
replaces the record with a fresh one — every daily counter zero, date set to
today, start_of_day_capital set to the current capital — while capital and
total_pnl are unchanged; can_trade and record_trade behave exactly as if
called on the rolled-over state, since both run the reset first. -/
theorem daily_rollover (cfg : RiskConfig) (now pnl : ℚ) (today : String)
    (st : RMState) (h : st.daily.date ≠ today) :
    resetDailyIfNeeded today st =
      { capital := st.capital, total_pnl := st.total_pnl,
        daily := DailyStats.fresh today st.capital }
    ∧ DailyStats.fresh today st.capital =
      ⟨today, 0, 0, 0, 0, 0, 0, 0, st.capital, 0, 0, 0, 0, 0, 0, 0, 0, 0, 0⟩
    ∧ canTrade cfg now today st = canTrade cfg now today (resetDailyIfNeeded today st)
    ∧ recordTrade cfg now today pnl st =
        recordTrade cfg now today pnl (resetDailyIfNeeded today st) := by
  have hres : resetDailyIfNeeded today st =
      { capital := st.capital, total_pnl := st.total_pnl,
        daily := DailyStats.fresh today st.capital } := by
    simp [resetDailyIfNeeded, h]
  have hidem : resetDailyIfNeeded today (resetDailyIfNeeded today st) =
      resetDailyIfNeeded today st := by
    rw [hres]
    simp [resetDailyIfNeeded, DailyStats.fresh]
  refine ⟨hres, rfl, ?_, ?_⟩
  · unfold canTrade
    rw [hidem]
  · unfold recordTrade
    rw [hidem]

/-- Witness for daily_rollover at the concrete state rollSt on a new day. -/
theorem daily_rollover_witness :
    rollSt.daily.date ≠ "2026-10-12"
    ∧ (resetDailyIfNeeded "2026-10-12" rollSt =
        { capital := rollSt.capital, total_pnl := rollSt.total_pnl,
          daily := DailyStats.fresh "2026-10-12" rollSt.capital }
      ∧ DailyStats.fresh "2026-10-12" rollSt.capital =
        ⟨"2026-10-12", 0, 0, 0, 0, 0, 0, 0, rollSt.capital, 0, 0, 0, 0, 0, 0, 0, 0, 0, 0⟩
      ∧ canTrade defaultRiskConfig 0 "2026-10-12" rollSt
          = canTrade defaultRiskConfig 0 "2026-10-12" (resetDailyIfNeeded "2026-10-12" rollSt)
      ∧ recordTrade defaultRiskConfig 0 "2026-10-12" 5 rollSt
          = recordTrade defaultRiskConfig 0 "2026-10-12" 5 (resetDailyIfNeeded "2026-10-12" rollSt)) :=
  ⟨by decide, daily_rollover defaultRiskConfig 0 5 "2026-10-12" rollSt (by decide)⟩

end Btcv25

namespace Btcv25

/-! ## Oracle window anchor (src/oracles/price_feed.py)

capture_window_open is embedded as a state transition on the single
_window_anchor slot of OracleEngine.  Time is an integer unix second;
local time is taken as UTC.  The consensus fetched by get_price is passed
in as data (the network fetch itself is outside the model). -/

structure WindowAnchor where
  boundary_time : ℚ
  open_price : ℚ
  source : String
  captured_at : ℚ
deriving DecidableEq, Repr

/-- The fields of a ConsensusPrice that capture_window_open consumes. -/
structure ConsensusLite where
  price : ℚ
  chainlink_price : Option ℚ
  sources : List String
deriving DecidableEq, Repr

/-- OracleEngine._current_window_boundary: start of the current N-minute
window — the timestamp with the minute aligned down to the window grid and
seconds zeroed. -/
def currentWindowBoundary (window_minutes : ℕ) (now : ℕ) : ℕ :=
  let mins := max 1 window_minutes
  let minute := now % 3600 / 60
  now / 3600 * 3600 + minute / mins * mins * 60

/-- OracleEngine.capture_window_open: returns the anchor and the new value of
the _window_anchor slot.  `fetch` is the consensus get_price would return on
this call (only consulted on a cache miss).  Python truthiness: a chainlink
price of 0.0 is falsy, so both the source tag and the open price fall back;
sources is nonempty whenever get_price returns (it raises otherwise), so the
headD default is never used on reachable inputs. -/
def captureWindowOpen (window_minutes : ℕ) (now : ℕ) (fetch : ConsensusLite)
    (anchor : Option WindowAnchor) : WindowAnchor × Option WindowAnchor :=
  let boundary_ts : ℚ := (currentWindowBoundary window_minutes now : ℚ)
  let cached : Option WindowAnchor :=
    match anchor with
    | some a => if a.boundary_time = boundary_ts then some a else none
    | none => none
  match cached with
  | some a => (a, anchor)
  | none =>
    let chainlinkTruthy : Bool :=
      match fetch.chainlink_price with
      | some c => decide (c ≠ 0)
      | none => false
    let source := if chainlinkTruthy then "chainlink" else fetch.sources.headD ""
    let open_price :=
      match fetch.chainlink_price with
      | some c => if c ≠ 0 then c else fetch.price
      | none => fetch.price
    let a : WindowAnchor :=
      { boundary_time := boundary_ts, open_price := open_price,
        source := source, captured_at := (now : ℚ) }
    (a, some a)

/-- First call of the interleaving scenario: 15m loop at 00:07:00, the
chainlink consensus price is 100. -/
def anchorStep1 : WindowAnchor × Option WindowAnchor :=
  captureWindowOpen 15 420 ⟨100, some 100, ["chainlink"]⟩ none

/-- Second call: 5m loop at 00:07:10 (5m boundary 00:05 differs from the
stored 15m boundary 00:00), price now 150. -/
def anchorStep2 : WindowAnchor × Option WindowAnchor :=
  captureWindowOpen 5 430 ⟨150, some 150, ["chainlink"]⟩ anchorStep1.2

/-- Third call: 15m loop again at 00:07:20, same 15m boundary as step 1,
price now 200. -/
def anchorStep3 : WindowAnchor × Option WindowAnchor :=
  captureWindowOpen 15 440 ⟨200, some 200, ["chainlink"]⟩ anchorStep2.2

/-- C2 counterexample: OracleEngine keeps a single _window_anchor slot, not
one anchor per (window, interval).  The 15m call at 00:07:00 anchors
boundary 0 at price 100; an interleaved 5m call replaces the slot with the
00:05 anchor; the next 15m call — boundary 0 is still the current 15m
boundary — fetches a fresh price and returns a different tuple (open 200,
new capture time) for the same boundary B. -/
theorem anchor_interleaving_cx :
    currentWindowBoundary 15 420 = 0
    ∧ currentWindowBoundary 15 440 = 0
    ∧ currentWindowBoundary 5 430 = 300
    ∧ anchorStep1.1.boundary_time = 0
    ∧ anchorStep3.1.boundary_time = 0
    ∧ anchorStep1.1.open_price = 100
    ∧ anchorStep3.1.open_price = 200
    ∧ anchorStep3.1 ≠ anchorStep1.1 := by
  refine ⟨rfl, rfl, rfl, ?_⟩
  decide

/-- C2 (amended): the anchor slot is immutable against same-boundary calls —
whenever the stored anchor already carries the boundary of the current call,
capture_window_open returns exactly that anchor and leaves the slot
unchanged, for any fetched consensus; interleaved calls whose boundary
differs (as the concurrent 5m and 15m loops produce) overwrite the slot, so
a later call for the original boundary fetches and records a fresh price
(anchor_interleaving_cx). -/
theorem anchor_immutable_same_boundary (W now : ℕ) (fetch : ConsensusLite)
    (a : WindowAnchor) (h : a.boundary_time = (currentWindowBoundary W now : ℚ)) :
    captureWindowOpen W now fetch (some a) = (a, some a) := by
  simp [captureWindowOpen, h]

/-- Witness for anchor_immutable_same_boundary: a second 15m call at
00:08:00 returns the stored boundary-0 anchor untouched. -/
theorem anchor_immutable_witness :
    (WindowAnchor.mk 0 100 "chainlink" 420).boundary_time
        = (currentWindowBoundary 15 480 : ℚ)
    ∧ captureWindowOpen 15 480 ⟨999, some 999, ["chainlink"]⟩
        (some (WindowAnchor.mk 0 100 "chainlink" 420))
      = (WindowAnchor.mk 0 100 "chainlink" 420,
          some (WindowAnchor.mk 0 100 "chainlink" 420)) :=
  ⟨by norm_num [currentWindowBoundary],
    anchor_immutable_same_boundary 15 480 ⟨999, some 999, ["chainlink"]⟩
      (WindowAnchor.mk 0 100 "chainlink" 420) (by norm_num [currentWindowBoundary])⟩

end Btcv25

namespace Btcv25

/-! ## Signal Engine (src/strategies/signal_engine.py)

Pure functions over ℚ.  Candle keeps all dataclass fields (the field named
open in the source is open_ here, open being a Lean keyword); only close is
read by the indicator code.  List indexing uses defaulted getters; every
default sits behind a length guard that mirrors the bound under which the
Python index is in range.  ℚ division by zero is 0 where the source would
raise ZeroDivisionError (empty-input corners that the analyze entry guards
against and that no theorem below relies on). -/

inductive MarketDirection where
  | UP
  | DOWN
  | HOLD
deriving DecidableEq, Repr

structure Candle where
  timestamp : ℚ
  open_ : ℚ
  high : ℚ
  low : ℚ
  close : ℚ
  volume : ℚ
  interval : String
deriving DecidableEq, Repr, Inhabited

structure Signal where
  name : String
  direction : MarketDirection
  strength : ℚ
  raw_value : ℚ
  description : String
deriving DecidableEq, Repr

structure StrategyConfig where
  confidence_threshold : ℚ
  strong_signal_threshold : ℚ
  rsi_period : ℕ
  rsi_overbought : ℚ
  rsi_oversold : ℚ
  ema_fast : ℕ
  ema_slow : ℕ
  macd_fast : ℕ
  macd_slow : ℕ
  macd_signal : ℕ
  momentum_lookback : ℕ
  min_volatility_pct : ℚ
  max_volatility_pct : ℚ
  weight_momentum : ℚ
  weight_rsi : ℚ
  weight_macd : ℚ
  weight_ema_cross : ℚ
deriving DecidableEq, Repr

/-- Defaults from config/settings.py StrategyConfig. -/
def defaultStrategyConfig : StrategyConfig :=
  { confidence_threshold := 0.60, strong_signal_threshold := 0.75, rsi_period := 14,
    rsi_overbought := 70, rsi_oversold := 30, ema_fast := 5, ema_slow := 15,
    macd_fast := 12, macd_slow := 26, macd_signal := 9, momentum_lookback := 3,
    min_volatility_pct := 0.03, max_volatility_pct := 3,
    weight_momentum := 0.30, weight_rsi := 0.25, weight_macd := 0.25,
    weight_ema_cross := 0.20 }

/-- Python list slice tail: xs[-n:]. -/
def lastN {α : Type} (n : ℕ) (l : List α) : List α := l.drop (l.length - n)

/-- StrategyEngine._ema.  The appended element reads the running last entry
(ema_values[-1]); the accumulator always starts nonempty. -/
def emaList (data : List ℚ) (period : ℕ) : List ℚ :=
  if data.length < period then List.replicate data.length (data.sum / data.length)
  else
    let m : ℚ := 2 / (period + 1)
    let init := (data.take period).sum / period
    (data.drop period).foldl
      (fun acc price => acc ++ [price * m + acc.getLastD 0 * (1 - m)]) [init]

/-- StrategyEngine._rsi (Wilder smoothing). -/
def rsiVal (closes : List ℚ) (period : ℕ) : ℚ :=
  if closes.length < period + 1 then 50
  else
    let deltas := List.zipWith (fun b a => b - a) closes.tail closes
    let gains := deltas.map (fun d => if 0 < d then d else 0)
    let losses := deltas.map (fun d => if d < 0 then -d else 0)
    let avg0 : ℚ × ℚ :=
      ((gains.take period).sum / (period : ℚ), (losses.take period).sum / (period : ℚ))
    let avgs := ((gains.drop period).zip (losses.drop period)).foldl
      (fun avg gl => ((avg.1 * ((period : ℚ) - 1) + gl.1) / (period : ℚ),
                      (avg.2 * ((period : ℚ) - 1) + gl.2) / (period : ℚ))) avg0
    if avgs.2 = 0 then 100 else 100 - 100 / (1 + avgs.1 / avgs.2)

/-- StrategyEngine._macd: (macd line last, signal line last, histogram).
Negative Python indexing xs[-(k)] is xs.getD (xs.length - k). -/
def macdTriple (closes : List ℚ) (fast slow signalPeriod : ℕ) : ℚ × ℚ × ℚ :=
  if closes.length < slow + signalPeriod then (0, 0, 0)
  else
    let ema_fast := emaList closes fast
    let ema_slow := emaList closes slow
    let min_len := min ema_fast.length ema_slow.length
    let macd_line := (List.range min_len).map (fun i =>
      ema_fast.getD (ema_fast.length - (min_len - i)) 0
        - ema_slow.getD (ema_slow.length - (min_len - i)) 0)
    if macd_line.length < signalPeriod then (macd_line.getLastD 0, 0, 0)
    else
      let signal_line := emaList macd_line signalPeriod
      (macd_line.getLastD 0, signal_line.getLastD 0,
        macd_line.getLastD 0 - signal_line.getLastD 0)

/-- StrategyEngine._volatility, squared: the source returns the square root
of this value and only compares it against the nonnegative config bounds, so
the volatility gates below compare this variance against the squared bounds
(sqrt is monotone on nonnegatives). -/
def varianceOfReturns (candles : List Candle) : ℚ :=
  if candles.length < 2 then 0
  else
    let returns := List.zipWith
      (fun b a => (b.close - a.close) / a.close * 100) candles.tail candles
    let mean := returns.sum / (returns.length : ℚ)
    (returns.map (fun r => (r - mean) ^ 2)).sum / (returns.length : ℚ)

/-- Drift of the current price from the window open, in percent. -/
def driftPct (current_price open_price : ℚ) : ℚ :=
  (current_price - open_price) / open_price * 100

/-- StrategyEngine._signal_price_vs_open.  Note: strength stays
min(1, |drift|/0.15) in the HOLD dead zone. -/
def signalPriceVsOpen (current_price open_price : ℚ) : Signal :=
  let drift_pct := driftPct current_price open_price
  let direction :=
    if (0.04 : ℚ) < drift_pct then MarketDirection.UP
    else if drift_pct < -(0.04 : ℚ) then MarketDirection.DOWN
    else MarketDirection.HOLD
  let strength := min 1 (|drift_pct| / 0.15)
  ⟨"price_vs_open", direction, strength, drift_pct, "Price vs window open"⟩

/-- StrategyEngine._signal_momentum. -/
def signalMomentum (cfg : StrategyConfig) (candles : List Candle) : Signal :=
  let lookback := min cfg.momentum_lookback (candles.length - 1)
  if lookback < 1 then ⟨"momentum", MarketDirection.HOLD, 0, 0, "No data"⟩
  else
    let current := (candles.getLastD default).close
    let past := (candles.getD (candles.length - (lookback + 1)) default).close
    let pct := (current - past) / past * 100
    let strength := min 1 (|pct| / 0.5)
    let ds : MarketDirection × ℚ :=
      if (0.02 : ℚ) < pct then (MarketDirection.UP, strength)
      else if pct < -(0.02 : ℚ) then (MarketDirection.DOWN, strength)
      else (MarketDirection.HOLD, 0)
    ⟨"momentum", ds.1, ds.2, pct, "k-candle momentum"⟩

/-- StrategyEngine._signal_rsi. -/
def signalRsi (cfg : StrategyConfig) (candles : List Candle) : Signal :=
  let closes := candles.map (fun c => c.close)
  let r := rsiVal closes cfg.rsi_period
  let ds : MarketDirection × ℚ :=
    if cfg.rsi_overbought < r then
      (MarketDirection.DOWN, min 1 ((r - cfg.rsi_overbought) / 15))
    else if r < cfg.rsi_oversold then
      (MarketDirection.UP, min 1 ((cfg.rsi_oversold - r) / 15))
    else if 50 < r then
      (MarketDirection.UP, (r - 50) / (cfg.rsi_overbought - 50) * 0.3)
    else
      (MarketDirection.DOWN, (50 - r) / (50 - cfg.rsi_oversold) * 0.3)
  ⟨"rsi", ds.1, ds.2, r, "RSI"⟩

/-- StrategyEngine._signal_macd. -/
def signalMacd (cfg : StrategyConfig) (candles : List Candle) : Signal :=
  let closes := candles.map (fun c => c.close)
  let t := macdTriple closes cfg.macd_fast cfg.macd_slow cfg.macd_signal
  let histogram := t.2.2
  let d :=
    if 0 < histogram then MarketDirection.UP
    else if histogram < 0 then MarketDirection.DOWN
    else MarketDirection.HOLD
  let normalized := |histogram| / closes.getLastD 1 * 10000
  let strength := min 1 (normalized / 10)
  let strength :=
    if 2 < closes.length then
      let prev := macdTriple closes.dropLast cfg.macd_fast cfg.macd_slow cfg.macd_signal
      if prev.2.2 * histogram < 0 then min 1 (strength * 1.5) else strength
    else strength
  ⟨"macd", d, strength, histogram, "MACD histogram"⟩

/-- StrategyEngine._signal_ema_cross. -/
def signalEmaCross (cfg : StrategyConfig) (candles : List Candle) : Signal :=
  let closes := candles.map (fun c => c.close)
  let ema_fast := emaList closes cfg.ema_fast
  let ema_slow := emaList closes cfg.ema_slow
  if ema_fast = [] ∨ ema_slow = [] then
    ⟨"ema_cross", MarketDirection.HOLD, 0, 0, "No data"⟩
  else
    let diff := ema_fast.getLastD 0 - ema_slow.getLastD 0
    let d :=
      if 0 < diff then MarketDirection.UP
      else if diff < 0 then MarketDirection.DOWN
      else MarketDirection.HOLD
    let spread_pct := |diff| / closes.getLastD 0 * 100
    let strength := min 1 (spread_pct / 0.15)
    let strength :=
      if 2 ≤ ema_fast.length ∧ 2 ≤ ema_slow.length then
        let prev_diff := ema_fast.getD (ema_fast.length - 2) 0
          - ema_slow.getD (ema_slow.length - 2) 0
        if prev_diff * diff < 0 then min 1 (strength * 2) else strength
      else strength
    ⟨"ema_cross", d, strength, diff, "EMA diff"⟩

end Btcv25

namespace Btcv25

structure StrategyDecision where
  direction : MarketDirection
  confidence : ℚ
  signals : List Signal
  current_price : ℚ
  open_price : Option ℚ
  drift_pct : Option ℚ
  volatility_pct : ℚ
  should_trade : Bool
  reason : String
  position_size_pct : ℚ
deriving DecidableEq, Repr

/-- Python truthiness of the analyze anchor guard:
open_price and open_price > 0 (None and 0.0 are falsy). -/
def anchorPresent : Option ℚ → Bool
  | some p => decide (0 < p)
  | none => false

/-- The four indicator signals, in the order analyze appends them. -/
def indicatorSignals (cfg : StrategyConfig) (candles : List Candle) : List Signal :=
  [signalMomentum cfg candles, signalRsi cfg candles,
   signalMacd cfg candles, signalEmaCross cfg candles]

/-- The signal list analyze builds: price_vs_open first when the anchor is
present, then the four indicators. -/
def allSignals (cfg : StrategyConfig) (candles : List Candle) (current_price : ℚ)
    (open_price : Option ℚ) : List Signal :=
  (if anchorPresent open_price then [signalPriceVsOpen current_price (open_price.getD 0)]
   else []) ++ indicatorSignals cfg candles

/-- The weights dict of analyze as a total lookup (weights.get(name, 0.0)). -/
def weightOf (cfg : StrategyConfig) (anchored : Bool) (n : String) : ℚ :=
  if anchored then
    if n = "price_vs_open" then 0.70
    else if n = "momentum" then cfg.weight_momentum * 0.30
    else if n = "rsi" then cfg.weight_rsi * 0.30
    else if n = "macd" then cfg.weight_macd * 0.30
    else if n = "ema_cross" then cfg.weight_ema_cross * 0.30
    else 0
  else
    if n = "momentum" then cfg.weight_momentum
    else if n = "rsi" then cfg.weight_rsi
    else if n = "macd" then cfg.weight_macd
    else if n = "ema_cross" then cfg.weight_ema_cross
    else 0

/-- The filter analyze applies twice: signals that are not price_vs_open and
not HOLD (indicator_dirs in the chop filter, indicator_signals in the
agreement filter). -/
def sourceIndicatorFilter (signals : List Signal) : List Signal :=
  signals.filter (fun s =>
    decide (s.name ≠ "price_vs_open" ∧ s.direction ≠ MarketDirection.HOLD))

def upScore (cfg : StrategyConfig) (candles : List Candle) (current_price : ℚ)
    (open_price : Option ℚ) : ℚ :=
  ((allSignals cfg candles current_price open_price).map (fun s =>
    if s.direction = MarketDirection.UP then
      s.strength * weightOf cfg (anchorPresent open_price) s.name
    else 0)).sum

def downScore (cfg : StrategyConfig) (candles : List Candle) (current_price : ℚ)
    (open_price : Option ℚ) : ℚ :=
  ((allSignals cfg candles current_price open_price).map (fun s =>
    if s.direction = MarketDirection.DOWN then
      s.strength * weightOf cfg (anchorPresent open_price) s.name
    else 0)).sum

def totalScore (cfg : StrategyConfig) (candles : List Candle) (current_price : ℚ)
    (open_price : Option ℚ) : ℚ :=
  upScore cfg candles current_price open_price
    + downScore cfg candles current_price open_price

/-- Direction of the weighted score (total 0 gives HOLD; ties go DOWN, the
else branch of the source). -/
def chosenDirection (cfg : StrategyConfig) (candles : List Candle)
    (current_price : ℚ) (open_price : Option ℚ) : MarketDirection :=
  if totalScore cfg candles current_price open_price = 0 then MarketDirection.HOLD
  else if downScore cfg candles current_price open_price
      < upScore cfg candles current_price open_price then MarketDirection.UP
  else MarketDirection.DOWN

/-- winner / total, before scaling. -/
def rawConfidence (cfg : StrategyConfig) (candles : List Candle)
    (current_price : ℚ) (open_price : Option ℚ) : ℚ :=
  if totalScore cfg candles current_price open_price = 0 then 0
  else if downScore cfg candles current_price open_price
      < upScore cfg candles current_price open_price then
    upScore cfg candles current_price open_price
      / totalScore cfg candles current_price open_price
  else
    downScore cfg candles current_price open_price
      / totalScore cfg candles current_price open_price

/-- Confidence scaled by min(1, total/0.5) and capped at 0.92. -/
def cappedConfidence (cfg : StrategyConfig) (candles : List Candle)
    (current_price : ℚ) (open_price : Option ℚ) : ℚ :=
  min (rawConfidence cfg candles current_price open_price
    * min 1 (totalScore cfg candles current_price open_price / 0.5)) 0.92

/-- indicator_signals count of the agreement filter. -/
def nonHoldIndLen (cfg : StrategyConfig) (candles : List Candle)
    (current_price : ℚ) (open_price : Option ℚ) : ℕ :=
  (sourceIndicatorFilter (allSignals cfg candles current_price open_price)).length

/-- disagree_count of the agreement filter. -/
def disagreeCount (cfg : StrategyConfig) (candles : List Candle)
    (current_price : ℚ) (open_price : Option ℚ) : ℕ :=
  ((sourceIndicatorFilter (allSignals cfg candles current_price open_price)).filter
    (fun s => decide (s.direction ≠ chosenDirection cfg candles current_price open_price))).length

/-- indicator_dirs of the chop filter. -/
def chopDirs (cfg : StrategyConfig) (candles : List Candle) (current_price : ℚ)
    (open_price : Option ℚ) : List MarketDirection :=
  (sourceIndicatorFilter (allSignals cfg candles current_price open_price)).map
    (fun s => s.direction)

/-- StrategyEngine.analyze.  Each early return mirrors one return statement
of the source; volatility gates compare the variance against squared bounds
(see varianceOfReturns); log strings are abbreviated. -/
def analyze (cfg : StrategyConfig) (candles : List Candle) (current_price : ℚ)
    (open_price : Option ℚ) (fee_pct : Option ℚ) : StrategyDecision :=
  if candles.length < 30 then
    ⟨MarketDirection.HOLD, 0, [], current_price, open_price, none, 0, false,
      "Insufficient data", 0⟩
  else
    let volSq := varianceOfReturns (lastN 20 candles)
    if volSq < cfg.min_volatility_pct ^ 2 then
      ⟨MarketDirection.HOLD, 0, [], current_price, open_price, none, volSq, false,
        "Volatility too low", 0⟩
    else if cfg.max_volatility_pct ^ 2 < volSq then
      ⟨MarketDirection.HOLD, 0, [], current_price, open_price, none, volSq, false,
        "Volatility too high", 0⟩
    else
      let anchored := anchorPresent open_price
      let op := open_price.getD 0
      let signals := allSignals cfg candles current_price open_price
      let drift : Option ℚ := if anchored then some (driftPct current_price op) else none
      if anchored = true
          ∧ 4 ≤ (chopDirs cfg candles current_price open_price).length
          ∧ (chopDirs cfg candles current_price open_price).count MarketDirection.UP = 2
          ∧ (chopDirs cfg candles current_price open_price).count MarketDirection.DOWN = 2
          ∧ |driftPct current_price op| < 0.12 then
        ⟨MarketDirection.HOLD, 0, signals, current_price, open_price, drift, volSq,
          false, "Chop detected", 0⟩
      else
        let direction := chosenDirection cfg candles current_price open_price
        let confidence := cappedConfidence cfg candles current_price open_price
        let abs_drift := |(drift.getD 0)|
        if anchored = true ∧ direction ≠ MarketDirection.HOLD
            ∧ 2 ≤ nonHoldIndLen cfg candles current_price open_price
            ∧ abs_drift < 0.10
            ∧ 2 ≤ disagreeCount cfg candles current_price open_price then
          ⟨direction, confidence, signals, current_price, open_price, drift, volSq,
            false, "Signal conflict low drift", 0⟩
        else if anchored = true ∧ direction ≠ MarketDirection.HOLD
            ∧ 2 ≤ nonHoldIndLen cfg candles current_price open_price
            ∧ 3 ≤ disagreeCount cfg candles current_price open_price then
          ⟨direction, confidence, signals, current_price, open_price, drift, volSq,
            false, "Signal conflict", 0⟩
        else
          let est_fee := fee_pct.getD 1.56
          let raw_edge := |confidence - 0.5| * 2 * 100
          if raw_edge < est_fee ∧ direction ≠ MarketDirection.HOLD then
            ⟨direction, confidence, signals, current_price, open_price, drift, volSq,
              false, "Edge below fee", 0⟩
          else
            let should_trade : Bool :=
              decide (direction ≠ MarketDirection.HOLD
                ∧ cfg.confidence_threshold ≤ confidence)
            let position_size_pct :=
              if should_trade then
                min (max 0 (confidence - (1 - confidence)) * 100 * 0.25) 10
              else 0
            ⟨direction, confidence, signals, current_price, open_price, drift, volSq,
              should_trade, "Weighted scores", position_size_pct⟩

end Btcv25

namespace Btcv25

theorem signalPriceVsOpen_name (cp op : ℚ) :
    (signalPriceVsOpen cp op).name = "price_vs_open" := rfl

theorem signalMomentum_name (cfg : StrategyConfig) (candles : List Candle) :
    (signalMomentum cfg candles).name = "momentum" := by
  unfold signalMomentum
  dsimp only
  split <;> rfl

theorem signalRsi_name (cfg : StrategyConfig) (candles : List Candle) :
    (signalRsi cfg candles).name = "rsi" := rfl

theorem signalMacd_name (cfg : StrategyConfig) (candles : List Candle) :
    (signalMacd cfg candles).name = "macd" := rfl

theorem signalEmaCross_name (cfg : StrategyConfig) (candles : List Candle) :
    (signalEmaCross cfg candles).name = "ema_cross" := by
  unfold signalEmaCross
  dsimp only
  split <;> rfl

theorem indicator_names (cfg : StrategyConfig) (candles : List Candle) :
    ∀ s ∈ indicatorSignals cfg candles, s.name ≠ "price_vs_open" := by
  intro s hs
  simp only [indicatorSignals, List.mem_cons, List.mem_singleton, List.not_mem_nil,
    or_false] at hs
  rcases hs with h | h | h | h <;> subst h <;>
    simp [signalMomentum_name, signalRsi_name, signalMacd_name, signalEmaCross_name]

/-- Number of the four indicator signals that carry a non-HOLD direction
opposing a given direction (the opposition notion of the agreement filter). -/
def opposingCount (cfg : StrategyConfig) (candles : List Candle)
    (current_price : ℚ) (open_price : Option ℚ) : ℕ :=
  ((indicatorSignals cfg candles).filter (fun s =>
    decide (s.direction ≠ MarketDirection.HOLD
      ∧ s.direction ≠ chosenDirection cfg candles current_price open_price))).length

theorem filter_skip_pvo (ch : MarketDirection) (l : List Signal)
    (hl : ∀ s ∈ l, s.name ≠ "price_vs_open") :
    ((l.filter (fun s => decide (s.name ≠ "price_vs_open"
        ∧ s.direction ≠ MarketDirection.HOLD))).filter
      (fun s => decide (s.direction ≠ ch))).length
    = (l.filter (fun s => decide (s.direction ≠ MarketDirection.HOLD
        ∧ s.direction ≠ ch))).length := by
  induction l with
  | nil => rfl
  | cons a t ih =>
    have ha : a.name ≠ "price_vs_open" := hl a (by simp)
    have ht : ∀ s ∈ t, s.name ≠ "price_vs_open" := fun s hs => hl s (by simp [hs])
    by_cases hH : a.direction = MarketDirection.HOLD
    · rw [List.filter_cons_of_neg (by simp [hH]), List.filter_cons_of_neg (by simp [hH])]
      exact ih ht
    · by_cases hc : a.direction = ch
      · rw [List.filter_cons_of_pos (by simp [ha, hH]),
          List.filter_cons_of_neg (by simp [hc]),
          List.filter_cons_of_neg (by simp [hc])]
        exact ih ht
      · rw [List.filter_cons_of_pos (by simp [ha, hH]),
          List.filter_cons_of_pos (by simp [hc]),
          List.filter_cons_of_pos (by simp [hH, hc])]
        simp only [List.length_cons]
        rw [ih ht]

theorem disagree_eq_opposing (cfg : StrategyConfig) (candles : List Candle)
    (current_price : ℚ) (open_price : Option ℚ)
    (h : anchorPresent open_price = true) :
    disagreeCount cfg candles current_price open_price
      = opposingCount cfg candles current_price open_price := by
  unfold disagreeCount opposingCount sourceIndicatorFilter allSignals
  rw [h]
  simp only [if_true, List.singleton_append, List.filter_cons]
  have hpvo : (decide ((signalPriceVsOpen current_price (open_price.getD 0)).name
      ≠ "price_vs_open" ∧ (signalPriceVsOpen current_price (open_price.getD 0)).direction
      ≠ MarketDirection.HOLD)) = false := by
    simp [signalPriceVsOpen_name]
  rw [hpvo]
  exact filter_skip_pvo _ _ (indicator_names cfg candles)

end Btcv25

namespace Btcv25

/-- C8: on every return path of analyze — insufficient data, the volatility
gates, the chop filter, both agreement-filter returns, the fee gate and the
final decision — the confidence field is at most 0.92, the final-path value
being the winner-over-total score scaled by min(1, total/0.5) and then
capped (cappedConfidence). -/
theorem confidence_cap (cfg : StrategyConfig) (candles : List Candle)
    (current_price : ℚ) (open_price fee_pct : Option ℚ) :
    (analyze cfg candles current_price open_price fee_pct).confidence ≤ 0.92 := by
  unfold analyze
  dsimp only
  split_ifs <;>
    first
      | (unfold cappedConfidence; exact min_le_right _ _)
      | norm_num

/-- C7: with an anchor present and a non-HOLD weighted direction, whenever at
least two of the four indicator signals carry a non-HOLD direction opposing
the chosen direction while |drift| < 0.10 pct, or at least three oppose at
any drift, the decision returned by analyze has should_trade = false. -/
theorem agreement_filter_holds (cfg : StrategyConfig) (candles : List Candle)
    (current_price : ℚ) (open_price fee_pct : Option ℚ)
    (hanch : anchorPresent open_price = true)
    (hdir : chosenDirection cfg candles current_price open_price ≠ MarketDirection.HOLD)
    (hopp : (2 ≤ opposingCount cfg candles current_price open_price
              ∧ |driftPct current_price (open_price.getD 0)| < 0.10)
            ∨ 3 ≤ opposingCount cfg candles current_price open_price) :
    (analyze cfg candles current_price open_price fee_pct).should_trade = false := by
  have hbr := disagree_eq_opposing cfg candles current_price open_price hanch
  have hlen : disagreeCount cfg candles current_price open_price
      ≤ nonHoldIndLen cfg candles current_price open_price :=
    List.length_filter_le _ _
  unfold analyze
  dsimp only
  split_ifs with h1 h2 h3 h4 h5 h6 h7 h8 <;> try rfl
  all_goals
    exfalso
    rcases hopp with ⟨h2o, hlt⟩ | h3o
  · exact h5 ⟨hanch, hdir, by omega, by simpa using hlt, by omega⟩
  · exact h6 ⟨hanch, hdir, by omega, by omega⟩
  · exact h5 ⟨hanch, hdir, by omega, by simpa using hlt, by omega⟩
  · exact h6 ⟨hanch, hdir, by omega, by omega⟩

end Btcv25

namespace Btcv25

/-- Config used by the agreement-filter witness: short EMA windows and a
1-candle momentum lookback so three indicators activate on three candles. -/
def wStratConfig : StrategyConfig :=
  { defaultStrategyConfig with ema_fast := 1, ema_slow := 2, momentum_lookback := 1 }

def wCandle (c : ℚ) : Candle := ⟨0, 0, 0, 0, c, 0, "15m"⟩

def wCandles : List Candle := [wCandle 100, wCandle 99, wCandle 98]

/-- Witness for agreement_filter_holds: three candles 100, 99, 98 with short
EMA windows make momentum, rsi and ema_cross all point DOWN while the anchor
drift (+0.1 pct) chooses UP, so three of four indicators oppose; the
decision does not trade. -/
theorem agreement_filter_witness :
    anchorPresent (some 100000) = true
    ∧ chosenDirection wStratConfig wCandles 100100 (some 100000) ≠ MarketDirection.HOLD
    ∧ 3 ≤ opposingCount wStratConfig wCandles 100100 (some 100000)
    ∧ (analyze wStratConfig wCandles 100100 (some 100000) none).should_trade = false := by
  have hmom : signalMomentum wStratConfig wCandles
      = ⟨"momentum", MarketDirection.DOWN, 1, -100/99, "k-candle momentum"⟩ := by
    norm_num [signalMomentum, wStratConfig, wCandles, wCandle, defaultStrategyConfig,
      min_def, abs_eq_max_neg, max_def, List.getD, List.getLastD, List.getLast?]
  have hrsi : signalRsi wStratConfig wCandles
      = ⟨"rsi", MarketDirection.DOWN, 0, 50, "RSI"⟩ := by
    norm_num [signalRsi, rsiVal, wStratConfig, wCandles, wCandle, defaultStrategyConfig]
  have hmacd : signalMacd wStratConfig wCandles
      = ⟨"macd", MarketDirection.HOLD, 0, 0, "MACD histogram"⟩ := by
    norm_num [signalMacd, macdTriple, wStratConfig, wCandles, wCandle,
      defaultStrategyConfig, min_def, abs_eq_max_neg, max_def, List.getLastD]
  have hema : signalEmaCross wStratConfig wCandles
      = ⟨"ema_cross", MarketDirection.DOWN, 1, -(1/2), "EMA diff"⟩ := by
    norm_num [signalEmaCross, emaList, wStratConfig, wCandles, wCandle,
      defaultStrategyConfig, min_def, abs_eq_max_neg, max_def, List.getD, List.getLastD,
      List.foldl_cons, List.foldl_nil, List.sum_cons, List.sum_nil, List.cons_ne_nil]
  have hpvo : signalPriceVsOpen 100100 100000
      = ⟨"price_vs_open", MarketDirection.UP, 2/3, 1/10, "Price vs window open"⟩ := by
    norm_num [signalPriceVsOpen, driftPct, min_def, abs_eq_max_neg, max_def]
  have hanch : anchorPresent (some (100000 : ℚ)) = true := by
    norm_num [anchorPresent]
  have hall : allSignals wStratConfig wCandles 100100 (some 100000)
      = [⟨"price_vs_open", MarketDirection.UP, 2/3, 1/10, "Price vs window open"⟩,
         ⟨"momentum", MarketDirection.DOWN, 1, -100/99, "k-candle momentum"⟩,
         ⟨"rsi", MarketDirection.DOWN, 0, 50, "RSI"⟩,
         ⟨"macd", MarketDirection.HOLD, 0, 0, "MACD histogram"⟩,
         ⟨"ema_cross", MarketDirection.DOWN, 1, -(1/2), "EMA diff"⟩] := by
    simp [allSignals, indicatorSignals, hanch, hmom, hrsi, hmacd, hema, hpvo]
  have hdir : chosenDirection wStratConfig wCandles 100100 (some 100000)
      = MarketDirection.UP := by
    unfold chosenDirection totalScore upScore downScore
    rw [hall, hanch]
    norm_num [weightOf, wStratConfig, defaultStrategyConfig,
      show MarketDirection.DOWN ≠ MarketDirection.UP by decide,
      show MarketDirection.HOLD ≠ MarketDirection.UP by decide,
      show MarketDirection.UP ≠ MarketDirection.DOWN by decide,
      show MarketDirection.HOLD ≠ MarketDirection.DOWN by decide,
      show ("momentum" : String) ≠ "price_vs_open" by decide,
      show ("rsi" : String) ≠ "price_vs_open" by decide,
      show ("rsi" : String) ≠ "momentum" by decide,
      show ("macd" : String) ≠ "price_vs_open" by decide,
      show ("macd" : String) ≠ "momentum" by decide,
      show ("macd" : String) ≠ "rsi" by decide,
      show ("ema_cross" : String) ≠ "price_vs_open" by decide,
      show ("ema_cross" : String) ≠ "momentum" by decide,
      show ("ema_cross" : String) ≠ "rsi" by decide,
      show ("ema_cross" : String) ≠ "macd" by decide]
  have hO : 3 ≤ opposingCount wStratConfig wCandles 100100 (some 100000) := by
    unfold opposingCount indicatorSignals
    rw [hmom, hrsi, hmacd, hema, hdir]
    norm_num [List.filter_cons,
      show MarketDirection.DOWN ≠ MarketDirection.UP by decide,
      show MarketDirection.DOWN ≠ MarketDirection.HOLD by decide]
  refine ⟨hanch, by simp [hdir], hO, ?_⟩
  exact agreement_filter_holds wStratConfig wCandles 100100 (some 100000) none
    hanch (by simp [hdir]) (Or.inr hO)

end Btcv25

namespace Btcv25

/-- C4 counterexample: the price_vs_open signal at current 100030, open
100000 (drift +0.03 pct, inside the HOLD dead zone) has direction HOLD yet
strength 0.2 = min(1, 0.03/0.15), not 0. -/
theorem hold_strength_cx :
    (signalPriceVsOpen 100030 100000).direction = MarketDirection.HOLD
    ∧ (signalPriceVsOpen 100030 100000).strength = 1/5
    ∧ (1/5 : ℚ) ≠ 0 := by
  norm_num [signalPriceVsOpen, driftPct, min_def, abs_eq_max_neg, max_def]

/-- C4 (amended): momentum, rsi, macd and ema_cross produce strength 0
whenever their direction is HOLD (rsi never emits HOLD), but price_vs_open
keeps strength min(1, |drift|/0.15) even when its direction is HOLD, so a
HOLD signal with nonzero strength can appear in a decision signal list.
(candles nonempty: on an empty list the source ema code raises instead.) -/
theorem hold_strength_amended (cfg : StrategyConfig) (candles : List Candle)
    (hne : candles ≠ []) :
    ((signalMomentum cfg candles).direction = MarketDirection.HOLD →
      (signalMomentum cfg candles).strength = 0)
    ∧ ((signalRsi cfg candles).direction = MarketDirection.HOLD →
      (signalRsi cfg candles).strength = 0)
    ∧ ((signalMacd cfg candles).direction = MarketDirection.HOLD →
      (signalMacd cfg candles).strength = 0)
    ∧ ((signalEmaCross cfg candles).direction = MarketDirection.HOLD →
      (signalEmaCross cfg candles).strength = 0)
    ∧ (∀ cp op : ℚ, (signalPriceVsOpen cp op).strength
        = min 1 (|driftPct cp op| / 0.15)) := by
  refine ⟨?_, ?_, ?_, ?_, fun cp op => rfl⟩
  · unfold signalMomentum
    dsimp only
    split_ifs <;> intro h <;> first | rfl | exact absurd h (by decide)
  · unfold signalRsi
    dsimp only
    split_ifs <;> intro h <;> first | rfl | exact absurd h (by decide)
  · intro h
    unfold signalMacd at h ⊢
    dsimp only at h ⊢
    have hH : (macdTriple (candles.map (fun c => c.close))
        cfg.macd_fast cfg.macd_slow cfg.macd_signal).2.2 = 0 := by
      by_contra hne0
      rcases lt_or_gt_of_ne hne0 with hlt | hgt
      · rw [if_neg (by linarith), if_pos hlt] at h
        exact absurd h (by decide)
      · rw [if_pos hgt] at h
        exact absurd h (by decide)
    rw [hH]
    simp [min_def]
  · intro h
    unfold signalEmaCross at h ⊢
    dsimp only at h ⊢
    by_cases hnil : emaList (candles.map (fun c => c.close)) cfg.ema_fast = []
        ∨ emaList (candles.map (fun c => c.close)) cfg.ema_slow = []
    · rw [if_pos hnil]
    · rw [if_neg hnil] at h ⊢
      dsimp only at h ⊢
      have hD : (emaList (candles.map (fun c => c.close)) cfg.ema_fast).getLastD 0
          - (emaList (candles.map (fun c => c.close)) cfg.ema_slow).getLastD 0 = 0 := by
        by_contra hne0
        rcases lt_or_gt_of_ne hne0 with hlt | hgt
        · rw [if_neg (by linarith), if_pos hlt] at h
          exact absurd h (by decide)
        · rw [if_pos hgt] at h
          exact absurd h (by decide)
      rw [hD]
      simp [min_def]

/-- Witness for hold_strength_amended at the concrete three-candle list. -/
theorem hold_strength_amended_witness :
    wCandles ≠ []
    ∧ ((signalMacd defaultStrategyConfig wCandles).direction = MarketDirection.HOLD →
        (signalMacd defaultStrategyConfig wCandles).strength = 0)
    ∧ (∀ cp op : ℚ, (signalPriceVsOpen cp op).strength
        = min 1 (|driftPct cp op| / 0.15)) :=
  ⟨by simp [wCandles],
   (hold_strength_amended defaultStrategyConfig wCandles (by simp [wCandles])).2.2.1,
   (hold_strength_amended defaultStrategyConfig wCandles (by simp [wCandles])).2.2.2.2⟩

end Btcv25

namespace Btcv25

/-! ## Market Maker (src/core/market_maker.py)

MMStats mirrors the MMStats dataclass field for field — in particular it has
no field named pulls_before_close, which is what _pull_expiring_quotes tries
to increment.  known_markets maps a condition id to the parsed end time of
the cached market info (ISO-8601 parsing by _parse_end_time is elided; a
None value stands for a missing or unparseable end_date). -/

structure ActiveQuote where
  order_id : String
  token_id : String
  condition_id : String
  side : String
  price : ℚ
  size : ℚ
  posted_at : ℚ
  timeframe : String
deriving DecidableEq, Repr

structure MMStats where
  quotes_posted : ℕ
  quotes_filled : ℕ
  quotes_cancelled : ℕ
  quotes_rejected : ℕ
  total_fills_usd : ℚ
  yes_fills_usd : ℚ
  no_fills_usd : ℚ
  skipped_for_imbalance : ℕ
  skipped_extreme_price : ℕ
deriving DecidableEq, Repr

/-- MMStats() with all counters at their dataclass defaults. -/
def MMStats.init : MMStats := ⟨0, 0, 0, 0, 0, 0, 0, 0, 0⟩

structure MMState where
  active_quotes : List ActiveQuote
  cancelled_order_ids : List String
  stats : MMStats
  known_markets : List (String × Option ℚ)
deriving DecidableEq, Repr

/-- self._known_markets.get(condition_id). -/
def lookupKnown (m : List (String × Option ℚ)) (cid : String) : Option (Option ℚ) :=
  (m.find? (fun p => decide (p.1 = cid))).map (fun p => p.2)

/-- MarketMaker._cancel_all_for_market.  The cancelled-ID set is modelled as
a list (the source set dedupes; duplicates are harmless to the properties
proved here); the venue cancel call sits in its own try/except and cannot
abort the method.  The prune keeps the newest 200 entries once the
collection exceeds 500 (the source samples an unordered set; the model keeps
the list tail). -/
def cancelAllForMarket (cid : String) (st : MMState) : MMState :=
  let newIds := st.cancelled_order_ids ++
    ((st.active_quotes.filter (fun q =>
      decide (q.condition_id = cid ∧ q.order_id ≠ ""))).map (fun q => q.order_id))
  let cancelled := (st.active_quotes.filter (fun q => decide (q.condition_id = cid))).length
  let st1 : MMState := { st with
    cancelled_order_ids := newIds,
    active_quotes := st.active_quotes.filter (fun q => decide (q.condition_id ≠ cid)),
    stats := { st.stats with quotes_cancelled := st.stats.quotes_cancelled + cancelled } }
  if 500 < st1.cancelled_order_ids.length then
    { st1 with cancelled_order_ids :=
        st1.cancelled_order_ids.drop (st1.cancelled_order_ids.length - 200) }
  else st1

/-- Outcome of one _pull_expiring_quotes call: either the loop finished, or
an AttributeError escaped, carrying the state at the moment of the raise. -/
inductive MMStepResult where
  | ok (st : MMState)
  | raisedAttrError (st : MMState)
deriving DecidableEq, Repr

/-- Loop body of MarketMaker._pull_expiring_quotes over the snapshot
list(self._active_quotes).  On the first quote whose market is within
pull_secs of its end time, the source cancels the market, adds it to
pulled_conditions, and then executes self._stats.pulls_before_close += 1 —
but MMStats defines no attribute pulls_before_close and nothing ever sets
one, so the augmented assignment raises AttributeError on the read and the
loop (and the enclosing cycle step) aborts there. -/
def pullGo (pull_secs now : ℚ) :
    List ActiveQuote → List String → MMState → MMStepResult
  | [], _, st => .ok st
  | q :: rest, pulled, st =>
    match lookupKnown st.known_markets q.condition_id with
    | none => pullGo pull_secs now rest pulled st
    | some none => pullGo pull_secs now rest pulled st
    | some (some end_time) =>
      if end_time - now ≤ pull_secs ∧ q.condition_id ∉ pulled then
        .raisedAttrError (cancelAllForMarket q.condition_id st)
      else pullGo pull_secs now rest pulled st

/-- MarketMaker._pull_expiring_quotes. -/
def pullExpiringQuotes (pull_secs now : ℚ) (st : MMState) : MMStepResult :=
  pullGo pull_secs now st.active_quotes [] st

def mmQuoteA : ActiveQuote := ⟨"OID1", "tokA", "cidA", "BUY_YES", 1/2, 6, 0, "15m"⟩

def mmQuoteB : ActiveQuote := ⟨"OID2", "tokB", "cidB", "BUY_NO", 1/2, 6, 0, "15m"⟩

/-- Failing input for C5: two active quotes on two markets, both within 60s
of their end times. -/
def mmSt : MMState :=
  { active_quotes := [mmQuoteA, mmQuoteB], cancelled_order_ids := [],
    stats := MMStats.init, known_markets := [("cidA", some 1030), ("cidB", some 1040)] }

/-- C5 (code bug): with pull_before_close_secs 60 at time 1000, both markets
expire within the pull window, but the pull step cancels only the first
market and then raises AttributeError on the missing
MMStats.pulls_before_close field: the second expiring market keeps its
quote, and the raised error aborts the rest of the cycle body. -/
theorem pull_expiring_raises :
    pullExpiringQuotes 60 1000 mmSt
      = .raisedAttrError
        { active_quotes := [mmQuoteB], cancelled_order_ids := ["OID1"],
          stats := { MMStats.init with quotes_cancelled := 1 },
          known_markets := [("cidA", some 1030), ("cidB", some 1040)] }
    ∧ (1040 : ℚ) - 1000 ≤ 60 := by
  constructor
  · norm_num [pullExpiringQuotes, pullGo, lookupKnown, cancelAllForMarket, mmSt,
      mmQuoteA, mmQuoteB, MMStats.init, List.find?, List.filter_cons, List.filter_nil,
      show ("OID1" : String) ≠ "" by decide, show ("OID2" : String) ≠ "" by decide,
      show ("cidB" : String) ≠ "cidA" by decide, show ("cidA" : String) ≠ "cidB" by decide]
  · norm_num

end Btcv25

namespace Btcv25

/-! ## Arb Scanner (src/core/arb_scanner.py)

ArbMarket carries the parsed end timestamp (end_ts in the source is a
property parsing end_date; the ISO parsing is elided and the parsed value
stored).  The near-miss and best-edge bookkeeping inside
_find_opportunities only feeds logging/stats and is elided; the opportunity
filter itself is embedded clause for clause. -/

structure ArbMarket where
  condition_id : String
  question : String
  slug : String
  token_id_yes : String
  token_id_no : String
  price_yes : ℚ
  price_no : ℚ
  liquidity : ℚ
  end_ts : ℚ
  timeframe : String
  volume : ℚ
  last_refreshed : ℚ
deriving DecidableEq, Repr

/-- ArbMarket.combined. -/
def ArbMarket.combined (m : ArbMarket) : ℚ := m.price_yes + m.price_no

/-- ArbMarket.edge_pct. -/
def ArbMarket.edge_pct (m : ArbMarket) : ℚ :=
  if m.combined < 1 then (1 - m.combined) * 100 else 0

/-- ArbMarket.time_remaining_secs. -/
def ArbMarket.time_remaining (m : ArbMarket) (now : ℚ) : ℚ := max 0 (m.end_ts - now)

structure ArbExecution where
  timestamp : ℚ
  condition_id : String
  question : String
  timeframe : String
  price_yes : ℚ
  price_no : ℚ
  combined : ℚ
  edge_pct : ℚ
  size_per_side : ℚ
  guaranteed_profit : ℚ
  order_id_yes : Option String
  order_id_no : Option String
  status : String
deriving DecidableEq, Repr

structure ArbScannerConfig where
  poll_interval_secs : ℚ
  arb_threshold : ℚ
  min_edge_pct : ℚ
  size_per_side_usd : ℚ
  max_daily_arb_trades : ℕ
  max_daily_arb_budget : ℚ
  min_liquidity_usd : ℚ
  cooldown_per_market_secs : ℚ
deriving DecidableEq, Repr

/-- Defaults from the ArbScannerConfig dataclass. -/
def defaultArbConfig : ArbScannerConfig :=
  { poll_interval_secs := 8, arb_threshold := 0.98, min_edge_pct := 1,
    size_per_side_usd := 10, max_daily_arb_trades := 50, max_daily_arb_budget := 200,
    min_liquidity_usd := 0, cooldown_per_market_secs := 120 }

/-- ArbScanner._estimate_taker_fee_pct with the default fallback 1.56. -/
def estTakerFeePct (price : ℚ) : ℚ :=
  if price ≤ 0 ∨ 1 ≤ price then 0
  else roundTo 4 (1.56 * 4 * price * (1 - price))

/-- Net edge in percent: gross edge minus both parabolic side fees. -/
def netEdgePct (m : ArbMarket) : ℚ :=
  m.edge_pct - (estTakerFeePct m.price_yes + estTakerFeePct m.price_no)

/-- self._cooldowns.get(cid, 0). -/
def cooldownOf (cooldowns : List (String × ℚ)) (cid : String) : ℚ :=
  ((cooldowns.find? (fun p => decide (p.1 = cid))).map (fun p => p.2)).getD 0

/-- ArbScanner._find_opportunities as a filter; each clause mirrors one
continue of the source loop (the near-miss window bookkeeping and
best-edge-seen update touch only stats and are elided). -/
def findOpportunities (cfg : ArbScannerConfig) (now : ℚ)
    (cooldowns : List (String × ℚ)) (markets : List ArbMarket) : List ArbMarket :=
  markets.filter (fun m =>
    decide (¬(m.combined = 0 ∨ m.time_remaining now ≤ 0)
      ∧ ¬(cfg.arb_threshold ≤ m.combined)
      ∧ ¬(m.edge_pct < cfg.min_edge_pct)
      ∧ ¬(netEdgePct m ≤ 0)
      ∧ ¬(now - cooldownOf cooldowns m.condition_id < cfg.cooldown_per_market_secs)
      ∧ ¬(m.liquidity < cfg.min_liquidity_usd)))

/-- How the two place_order calls of _execute_arb came out; raisedAfter
stands for an exception escaping the inner try after the yes-side order may
already have returned (its order id, when any). -/
inductive ArbPlaceOutcome where
  | dryRun
  | orders (yesId noId : Option String)
  | raisedAfter (yesId : Option String)
deriving DecidableEq, Repr

structure ArbState where
  executions : List ArbExecution
  cooldowns : List (String × ℚ)
  daily_trades : ℕ
  daily_spent : ℚ
  daily_profit : ℚ
deriving DecidableEq, Repr

/-- Write now into the per-market cooldown map. -/
def setCooldown (cooldowns : List (String × ℚ)) (cid : String) (now : ℚ) :
    List (String × ℚ) :=
  (cid, now) :: cooldowns.filter (fun p => decide (p.1 ≠ cid))

/-- Status and ids the execution record picks up from the order outcome. -/
def applyOutcome (o : ArbPlaceOutcome) (e : ArbExecution) : ArbExecution :=
  match o with
  | .dryRun => { e with status := "dry_run" }
  | .orders y n =>
    let st : String :=
      if y.isSome ∧ n.isSome then "filled"
      else if y.isSome ∨ n.isSome then "partial"
      else "failed"
    { e with order_id_yes := y, order_id_no := n, status := st }
  | .raisedAfter y => { e with order_id_yes := y, status := "failed" }

/-- ArbScanner._execute_arb: returns the execution (when one is appended)
and the updated scanner state. -/
def executeArb (cfg : ArbScannerConfig) (now : ℚ) (outcome : ArbPlaceOutcome)
    (st : ArbState) (m : ArbMarket) : Option ArbExecution × ArbState :=
  if cfg.max_daily_arb_trades ≤ st.daily_trades then (none, st)
  else
    let cost := cfg.size_per_side_usd * 2
    if cfg.max_daily_arb_budget < st.daily_spent + cost then (none, st)
    else
      let gross_profit := cfg.size_per_side_usd * (1 / m.combined - 1)
      let fee_yes_pct := estTakerFeePct m.price_yes
      let fee_no_pct := estTakerFeePct m.price_no
      let total_fees := cfg.size_per_side_usd * fee_yes_pct / 100
        + cfg.size_per_side_usd * fee_no_pct / 100
      let net_profit := round2 (gross_profit - total_fees)
      if net_profit ≤ 0 then (none, st)
      else
        let e0 : ArbExecution :=
          { timestamp := now, condition_id := m.condition_id, question := m.question,
            timeframe := m.timeframe, price_yes := m.price_yes, price_no := m.price_no,
            combined := m.combined, edge_pct := m.edge_pct,
            size_per_side := cfg.size_per_side_usd, guaranteed_profit := net_profit,
            order_id_yes := none, order_id_no := none, status := "pending" }
        let e := applyOutcome outcome e0
        (some e,
          { executions := st.executions ++ [e],
            cooldowns := setCooldown st.cooldowns m.condition_id now,
            daily_trades := st.daily_trades + 1,
            daily_spent := st.daily_spent + cost,
            daily_profit :=
              if e.status = "filled" ∨ e.status = "dry_run" then
                st.daily_profit + net_profit
              else st.daily_profit })

/-- The execution pass of the scan loop: execute each opportunity in order,
stopping once the daily trade count or budget is reached (outcomes indexed
by position). -/
def runOpps (cfg : ArbScannerConfig) (now : ℚ) (outcomes : ℕ → ArbPlaceOutcome) :
    ℕ → ArbState → List ArbMarket → ArbState
  | _, st, [] => st
  | i, st, m :: rest =>
    let st1 := (executeArb cfg now (outcomes i) st m).2
    if cfg.max_daily_arb_trades ≤ st1.daily_trades
        ∨ cfg.max_daily_arb_budget ≤ st1.daily_spent then st1
    else runOpps cfg now outcomes (i + 1) st1 rest

end Btcv25

namespace Btcv25

/-- Fee-positivity of a price pair: gross edge exceeds both parabolic side
fees. -/
def feePositive (py pn : ℚ) : Prop :=
  0 < (1 - (py + pn)) * 100 - estTakerFeePct py - estTakerFeePct pn

theorem estTakerFeePct_nonneg (p : ℚ) : 0 ≤ estTakerFeePct p := by
  unfold estTakerFeePct
  split_ifs with h
  · exact le_refl 0
  · apply roundTo_nonneg
    push_neg at h
    obtain ⟨h1, h2⟩ := h
    nlinarith

theorem find_fee_positive (cfg : ArbScannerConfig) (now : ℚ)
    (cooldowns : List (String × ℚ)) (markets : List ArbMarket) :
    ∀ m ∈ findOpportunities cfg now cooldowns markets,
      feePositive m.price_yes m.price_no := by
  intro m hm
  unfold findOpportunities at hm
  rw [List.mem_filter, decide_eq_true_eq] at hm
  obtain ⟨-, h0, hth, hme, hnet, hcd, hliq⟩ := hm
  unfold feePositive
  unfold netEdgePct at hnet
  push_neg at hnet
  have f1 := estTakerFeePct_nonneg m.price_yes
  have f2 := estTakerFeePct_nonneg m.price_no
  by_cases hc : m.combined < 1
  · unfold ArbMarket.edge_pct at hnet
    rw [if_pos hc] at hnet
    unfold ArbMarket.combined at hnet
    linarith
  · unfold ArbMarket.edge_pct at hnet
    rw [if_neg hc] at hnet
    linarith

theorem executeArb_shape (cfg : ArbScannerConfig) (now : ℚ)
    (o : ArbPlaceOutcome) (st : ArbState) (m : ArbMarket) :
    (executeArb cfg now o st m).2.executions = st.executions
    ∨ ∃ e, (executeArb cfg now o st m).2.executions = st.executions ++ [e]
        ∧ e.price_yes = m.price_yes ∧ e.price_no = m.price_no := by
  unfold executeArb
  dsimp only
  split_ifs with h1 h2 h3 h4 <;>
    first
      | (left; rfl)
      | (right; refine ⟨_, rfl, ?_, ?_⟩ <;> cases o <;> rfl)

theorem runOpps_fee_positive (cfg : ArbScannerConfig) (now : ℚ)
    (outcomes : ℕ → ArbPlaceOutcome) :
    ∀ (opps : List ArbMarket) (i : ℕ) (st : ArbState),
      (∀ m ∈ opps, feePositive m.price_yes m.price_no) →
      ∀ e ∈ (runOpps cfg now outcomes i st opps).executions,
        e ∈ st.executions ∨ feePositive e.price_yes e.price_no := by
  intro opps
  induction opps with
  | nil =>
    intro i st _ e he
    exact Or.inl he
  | cons m rest ih =>
    intro i st hpos e he
    have hm : feePositive m.price_yes m.price_no := hpos m (by simp)
    have hrest : ∀ x ∈ rest, feePositive x.price_yes x.price_no :=
      fun x hx => hpos x (by simp [hx])
    have hstep : ∀ x, x ∈ (executeArb cfg now (outcomes i) st m).2.executions →
        x ∈ st.executions ∨ feePositive x.price_yes x.price_no := by
      intro x hx
      rcases executeArb_shape cfg now (outcomes i) st m with hsh | ⟨e2, hsh, hy, hn⟩
      · exact Or.inl (hsh ▸ hx)
      · rw [hsh, List.mem_append] at hx
        rcases hx with hx | hx
        · exact Or.inl hx
        · right
          rw [List.mem_singleton] at hx
          subst hx
          rw [hy, hn]
          exact hm
    rw [runOpps] at he
    split_ifs at he with hbreak
    · exact hstep e he
    · rcases ih (i + 1) ((executeArb cfg now (outcomes i) st m).2) hrest e he with h | h
      · exact hstep e h
      · exact Or.inr h

/-- C6: fee-positive arbitrage.  _find_opportunities only returns markets
whose gross edge exceeds the sum of the two parabolic side fees at the
quoted prices; _execute_arb independently declines (appending nothing) any
market whose fee-adjusted dollar profit rounds to ≤ 0; and every
ArbExecution the scan pass appends records prices that are fee-positive. -/
theorem arb_fee_positive (cfg : ArbScannerConfig) (now : ℚ)
    (cooldowns : List (String × ℚ)) (markets : List ArbMarket)
    (outcomes : ℕ → ArbPlaceOutcome) (st : ArbState) (i : ℕ) :
    (∀ m ∈ findOpportunities cfg now cooldowns markets,
      feePositive m.price_yes m.price_no)
    ∧ (∀ (m : ArbMarket) (o : ArbPlaceOutcome) (st2 : ArbState),
        round2 (cfg.size_per_side_usd * (1 / m.combined - 1)
          - (cfg.size_per_side_usd * estTakerFeePct m.price_yes / 100
            + cfg.size_per_side_usd * estTakerFeePct m.price_no / 100)) ≤ 0 →
        (executeArb cfg now o st2 m).1 = none
          ∧ (executeArb cfg now o st2 m).2.executions = st2.executions)
    ∧ (∀ e ∈ (runOpps cfg now outcomes i st
          (findOpportunities cfg now cooldowns markets)).executions,
        e ∈ st.executions ∨ feePositive e.price_yes e.price_no) := by
  refine ⟨find_fee_positive cfg now cooldowns markets, ?_, ?_⟩
  · intro m o st2 hnp
    unfold executeArb
    dsimp only
    split_ifs with h1 h2 h3 h4 <;>
      first
        | exact ⟨rfl, rfl⟩
        | exact absurd hnp h3
  · exact runOpps_fee_positive cfg now outcomes
      (findOpportunities cfg now cooldowns markets) i st
      (find_fee_positive cfg now cooldowns markets)

end Btcv25

namespace Btcv25

/-- Concrete arb market: YES 0.48 + NO 0.48, the spec scenario. -/
def arbM48 : ArbMarket :=
  ⟨"c48", "q48", "btc-updown-15m-1", "ty", "tn", 0.48, 0.48, 5, 2000, "15m", 0, 0⟩

/-- Concrete market whose 0.2 pct gross edge the fees wipe out. -/
def arbMbad : ArbMarket :=
  ⟨"cbad", "qbad", "btc-updown-15m-2", "ty", "tn", 0.499, 0.499, 5, 2000, "15m", 0, 0⟩

def arbSt0 : ArbState := ⟨[], [], 0, 0, 0⟩

def arbE0 : ArbExecution :=
  ⟨0, "c0", "q", "15m", 0.48, 0.48, 0.96, 4, 10, 0.11, none, none, "dry_run"⟩

/-- Scanner state already at the daily trade cap, holding one execution. -/
def arbStFull : ArbState := ⟨[arbE0], [], 50, 0, 0⟩

/-- Witness for arb_fee_positive: the 0.48/0.48 market passes the filter and
is fee-positive; the 0.499/0.499 market has fee-adjusted profit −0.29 and is
declined; the scan pass leaves a capped state untouched, so its only
execution is a pre-existing one. -/
theorem arb_fee_positive_witness :
    arbM48 ∈ findOpportunities defaultArbConfig 1000 [] [arbM48]
    ∧ feePositive arbM48.price_yes arbM48.price_no
    ∧ round2 (defaultArbConfig.size_per_side_usd * (1 / arbMbad.combined - 1)
        - (defaultArbConfig.size_per_side_usd * estTakerFeePct arbMbad.price_yes / 100
          + defaultArbConfig.size_per_side_usd * estTakerFeePct arbMbad.price_no / 100)) ≤ 0
    ∧ (executeArb defaultArbConfig 1000 ArbPlaceOutcome.dryRun arbSt0 arbMbad).1 = none
    ∧ (arbE0 ∈ arbStFull.executions ∨ feePositive arbE0.price_yes arbE0.price_no) := by
  have hfee48 : estTakerFeePct (0.48 : ℚ) = 1.5575 := by
    norm_num [estTakerFeePct, roundTo, roundHalfEven]
  have hfee48b : estTakerFeePct ((12 : ℚ) / 25) = 1.5575 := by
    norm_num [estTakerFeePct, roundTo, roundHalfEven]
  have hfind : findOpportunities defaultArbConfig 1000 [] [arbM48] = [arbM48] := by
    norm_num [findOpportunities, defaultArbConfig, arbM48, netEdgePct,
      ArbMarket.edge_pct, ArbMarket.combined, ArbMarket.time_remaining, cooldownOf,
      hfee48, hfee48b, List.find?, min_def, max_def, List.filter_cons, List.filter_nil]
  have hmem : arbM48 ∈ findOpportunities defaultArbConfig 1000 [] [arbM48] := by
    rw [hfind]
    exact List.mem_singleton.mpr rfl
  have hbad : round2 (defaultArbConfig.size_per_side_usd * (1 / arbMbad.combined - 1)
      - (defaultArbConfig.size_per_side_usd * estTakerFeePct arbMbad.price_yes / 100
        + defaultArbConfig.size_per_side_usd * estTakerFeePct arbMbad.price_no / 100)) ≤ 0 := by
    norm_num [defaultArbConfig, arbMbad, ArbMarket.combined, estTakerFeePct,
      round2, roundTo, roundHalfEven]
  have hrun : runOpps defaultArbConfig 1000 (fun _ => ArbPlaceOutcome.dryRun) 0
      arbStFull (findOpportunities defaultArbConfig 1000 [] [arbM48]) = arbStFull := by
    rw [hfind]
    norm_num [runOpps, executeArb, defaultArbConfig, arbStFull]
  have hmem3 : arbE0 ∈ (runOpps defaultArbConfig 1000 (fun _ => ArbPlaceOutcome.dryRun) 0
      arbStFull (findOpportunities defaultArbConfig 1000 [] [arbM48])).executions := by
    rw [hrun]
    simp [arbStFull]
  refine ⟨hmem, ?_, hbad, ?_, ?_⟩
  · exact (arb_fee_positive defaultArbConfig 1000 [] [arbM48]
      (fun _ => ArbPlaceOutcome.dryRun) arbSt0 0).1 arbM48 hmem
  · exact ((arb_fee_positive defaultArbConfig 1000 [] [arbM48]
      (fun _ => ArbPlaceOutcome.dryRun) arbSt0 0).2.1 arbMbad ArbPlaceOutcome.dryRun
      arbSt0 hbad).1
  · exact (arb_fee_positive defaultArbConfig 1000 [] [arbM48]
      (fun _ => ArbPlaceOutcome.dryRun) arbStFull 0).2.2 arbE0 hmem3

end Btcv25

namespace Btcv25

/-! ## Exchange Client order placement (src/core/polymarket_client.py)

place_order is embedded as a pure function over a PlaceEnv that records what
each fallible venue call would return on this invocation (a Call is either a
returned value or a raised exception).  The catch-all around the method body
turns any uncaught exception inside it into a no-trade return; only
_ensure_clob sits outside it and can propagate (PlaceResult.initError).
The fee-rate lookups never raise (inner try, None folded to 0 bps) and only
feed order signing, so they carry no field here.  The formatted trade id is
modelled as the constant "T" (its content is never branched on). -/

structure BinaryMarket where
  condition_id : String
  question : String
  slug : String
  token_id_up : String
  token_id_down : String
  price_up : ℚ
  price_down : ℚ
deriving DecidableEq, Repr

structure TradeRecord where
  trade_id : String
  timestamp : ℚ
  market_condition_id : String
  direction : String
  confidence : ℚ
  entry_price : ℚ
  size_usd : ℚ
  oracle_price_at_entry : ℚ
  outcome : Option String
  pnl : ℚ
  order_id : Option String
  tx_hashes : List String
deriving DecidableEq, Repr

/-- The venue response dict fields place_order reads, with their .get
defaults applied except orderID, whose default differs per call site. -/
structure OrderResp where
  success : Bool
  status : String
  orderID : Option String
  errorMsg : String
  txHashes : List String
deriving DecidableEq, Repr

/-- The get_order result dict fields place_order reads; txHashes is None
when the transactionsHashes key is absent. -/
structure OrderInfo where
  status : String
  txHashes : Option (List String)
deriving DecidableEq, Repr

/-- A venue call that either returned a value or raised. -/
inductive Call (α : Type) where
  | ok (a : α)
  | exn
deriving DecidableEq, Repr

/-- Outcome of the FOK attempt: the SDK raised with a message, or post_order
returned (possibly None). -/
inductive FokResult where
  | thrown (msg : String)
  | returned (r : Option OrderResp)
deriving DecidableEq, Repr

structure ClientConfig where
  order_type : String
  max_slippage_pct : ℚ
deriving DecidableEq, Repr

structure PlaceEnv where
  initOk : Bool
  clobPrice : Option ℚ
  fok : FokResult
  gtcFallback : Call (Option OrderResp)
  gtcCancelRaises : Bool
  limitResp : Call (Option OrderResp)
  liveGet : Call (Option OrderInfo)
  liveCancelRaises : Bool
  liveRecheck : Call (Option OrderInfo)
  verify1 : Call (Option OrderInfo)
  verify2 : Call (Option OrderInfo)
  now : ℚ
deriving DecidableEq, Repr

inductive PlaceResult where
  | initError
  | done (r : Option TradeRecord)
deriving DecidableEq, Repr

/-- (order_info or empty dict).get("status", ""). -/
def infoStatus : Option OrderInfo → String
  | some oi => oi.status
  | none => ""

/-- (order_info or empty dict).get("transactionsHashes", d). -/
def infoTx (d : List String) : Option OrderInfo → List String
  | some oi => oi.txHashes.getD d
  | none => d

/-- Python str.lower() over the ASCII statuses involved. -/
def strLower (s : String) : String := String.mk (s.data.map Char.toLower)

/-- Python substring containment: sub in s (for nonempty sub). -/
def containsSub (s sub : String) : Bool := decide (1 < (s.splitOn sub).length)

/-- The second thin-book phrase; the apostrophe is assembled from its code
point. -/
def thinPhrase2 : String := "couldn" ++ String.mk [Char.ofNat 39] ++ "t be fully filled"

/-- The thin-book rejection test applied to a lowercased message. -/
def isThinBookMsg (msg : String) : Bool :=
  containsSub (strLower msg) "fully filled or killed" || containsSub (strLower msg) thinPhrase2

/-- Execution price derivation: prefer the live CLOB price when truthy
(0.0 is falsy), else the passed price, else the market quoted price. -/
def derivedExecPrice (env : PlaceEnv) (market : BinaryMarket) (direction : String)
    (priceArg : Option ℚ) : ℚ :=
  let market_price := if direction = "up" then market.price_up else market.price_down
  let price := priceArg.getD market_price
  match env.clobPrice with
  | some c => if c ≠ 0 then c else price
  | none => price

/-- The TradeRecord place_order appends on the record path. -/
def mkTradeRecord (env : PlaceEnv) (market : BinaryMarket) (direction : String)
    (size_usd oracle_price confidence fill_price : ℚ) (order_id : String)
    (tx_hashes : List String) : TradeRecord :=
  { trade_id := "T", timestamp := env.now, market_condition_id := market.condition_id,
    direction := direction, confidence := confidence, entry_price := fill_price,
    size_usd := size_usd, oracle_price_at_entry := oracle_price, outcome := none,
    pnl := 0, order_id := some order_id, tx_hashes := tx_hashes }

/-- The resting-live-order block (source lines around the 12s wait): returns
None when the block returns no trade, else the updated (success, status,
tx_hashes).  Every arm of the cancel path ends in the source with an
unconditional return None — including the re-check that finds a late fill,
which sets success and then still falls through to that return. -/
def liveHandle (env : PlaceEnv) (resp : OrderResp) :
    Option (Bool × String × List String) :=
  if resp.status = "live" ∧ ¬resp.success then
    let live_order_id := resp.orderID.getD ""
    if live_order_id = "" then none
    else
      match env.liveGet with
      | .exn => none
      | .ok oi =>
        if strLower (infoStatus oi) = "matched" ∨ strLower (infoStatus oi) = "filled" then
          some (true, "matched", infoTx resp.txHashes oi)
        else
          if env.liveCancelRaises then
            match env.liveRecheck with
            | .exn => none
            | .ok _ => none
          else none
  else some (resp.success, resp.status, resp.txHashes)

/-- The fill-verification tail: first requery after 3s only when the
response carried transaction hashes (a ghost fill skips straight to the
retry), second requery after 2s otherwise; a second-requery exception is
logged and the trade recorded anyway. -/
def verifyAndRecord (env : PlaceEnv) (market : BinaryMarket) (direction : String)
    (size_usd oracle_price confidence : ℚ) (success : Bool) (status : String)
    (tx_hashes : List String) (order_id : String) (exec_price : ℚ) :
    Option TradeRecord :=
  let record := some (mkTradeRecord env market direction size_usd oracle_price
    confidence exec_price order_id tx_hashes)
  if success = true ∨ status = "matched" then
    let verified1 : Bool :=
      if tx_hashes ≠ [] then
        match env.verify1 with
        | .exn => false
        | .ok none => false
        | .ok (some o) =>
          decide (strLower o.status = "matched" ∨ strLower o.status = "filled")
      else false
    if verified1 then record
    else
      match env.verify2 with
      | .exn => record
      | .ok none => none
      | .ok (some o2) =>
        if strLower o2.status = "matched" ∨ strLower o2.status = "filled" then record
        else none
  else record

/-- Response handling shared by all submit paths (source from the response
log line onward). -/
def placeOrderCommon (env : PlaceEnv) (market : BinaryMarket) (direction : String)
    (size_usd oracle_price confidence : ℚ) (resp : OrderResp) (exec_price : ℚ) :
    Option TradeRecord :=
  let order_id := resp.orderID.getD "T"
  if ¬resp.success ∧ resp.status ≠ "matched" ∧ resp.status ≠ "live" then none
  else
    match liveHandle env resp with
    | none => none
    | some (s, st, tx) =>
      verifyAndRecord env market direction size_usd oracle_price confidence
        s st tx order_id exec_price

/-- The GTC-with-slippage retry after a thin-book FOK rejection.  A resting
live order is cancelled after 10s (a cancel exception is read as an already
filled order); a successful or matched response books at the slippage
price. -/
def placeGtcFallback (cfg : ClientConfig) (env : PlaceEnv) (market : BinaryMarket)
    (direction : String) (size_usd oracle_price confidence exec_price : ℚ) :
    PlaceResult :=
  let slippage_price := round2 (min 0.99 (exec_price * (1 + cfg.max_slippage_pct / 100)))
  let ss := round2 (size_usd / slippage_price)
  let _slippage_shares := if ss < 5 then (5 : ℚ) else ss
  match env.gtcFallback with
  | .exn => .done none
  | .ok none => .done none
  | .ok (some resp0) =>
    let gtc_status := resp0.status
    let gtc_order_id := resp0.orderID.getD ""
    let resp :=
      if gtc_status = "live" ∧ gtc_order_id ≠ "" then
        if env.gtcCancelRaises then { resp0 with success := true, status := "matched" }
        else { success := false, status := "cancelled", orderID := none,
               errorMsg := "GTC timeout - no fill", txHashes := ([] : List String) }
      else resp0
    let exec_price := if resp.success = true ∨ resp.status = "matched" then
      slippage_price else exec_price
    .done (placeOrderCommon env market direction size_usd oracle_price confidence
      resp exec_price)

/-- PolymarketClient.place_order. -/
def placeOrder (cfg : ClientConfig) (env : PlaceEnv) (market : BinaryMarket)
    (direction : String) (size_usd : ℚ) (priceArg : Option ℚ)
    (oracle_price confidence : ℚ) : PlaceResult :=
  if size_usd < 0.50 then .done none
  else if ¬env.initOk then .initError
  else
    let exec_price := derivedExecPrice env market direction priceArg
    if exec_price < 0.01 ∨ 0.99 < exec_price then .done none
    else
      let shares := round2 (size_usd / exec_price)
      let _shares := if shares < 5 then (5 : ℚ) else shares
      if strLower cfg.order_type = "market" then
        match env.fok with
        | .thrown msg =>
          if isThinBookMsg msg then
            placeGtcFallback cfg env market direction size_usd oracle_price
              confidence exec_price
          else .done none
        | .returned none =>
          -- resp stays None with no thin-book flag; the resp.get calls after
          -- the log line raise and the catch-all returns no trade
          .done none
        | .returned (some resp) =>
          if ¬resp.success ∧ resp.status ∉ ["matched", "live"]
              ∧ isThinBookMsg resp.errorMsg then
            placeGtcFallback cfg env market direction size_usd oracle_price
              confidence exec_price
          else
            .done (placeOrderCommon env market direction size_usd oracle_price
              confidence resp exec_price)
      else
        match env.limitResp with
        | .exn => .done none
        | .ok none => .done none
        | .ok (some resp) =>
          .done (placeOrderCommon env market direction size_usd oracle_price
            confidence resp exec_price)

/-- The effect of place_order on the _trade_records list. -/
def placeOrderRecords (records : List TradeRecord) (cfg : ClientConfig)
    (env : PlaceEnv) (market : BinaryMarket) (direction : String) (size_usd : ℚ)
    (priceArg : Option ℚ) (oracle_price confidence : ℚ) : List TradeRecord :=
  match placeOrder cfg env market direction size_usd priceArg oracle_price confidence with
  | .done (some r) => records ++ [r]
  | _ => records

/-- Whether a place_order run produced (and stored) a TradeRecord. -/
def producedTrade : PlaceResult → Bool
  | .done (some _) => true
  | _ => false

/-- Whether a requery outcome reports the order as matched or filled. -/
def reportsFill : Call (Option OrderInfo) → Bool
  | .ok (some oi) => decide (strLower oi.status = "matched" ∨ strLower oi.status = "filled")
  | _ => false

end Btcv25

namespace Btcv25

theorem verifyAndRecord_none (env : PlaceEnv) (market : BinaryMarket)
    (direction : String) (size_usd oracle_price confidence : ℚ) (success : Bool)
    (status : String) (tx_hashes : List String) (order_id : String) (exec_price : ℚ)
    (hs : success = true ∨ status = "matched")
    (h1 : reportsFill env.verify1 = false) (h2 : env.verify2 ≠ Call.exn)
    (h3 : reportsFill env.verify2 = false) :
    verifyAndRecord env market direction size_usd oracle_price confidence success
      status tx_hashes order_id exec_price = none := by
  unfold verifyAndRecord
  rw [if_pos hs]
  dsimp only
  have hv1 : (if tx_hashes ≠ [] then
      match env.verify1 with
      | Call.exn => false
      | Call.ok none => false
      | Call.ok (some o) =>
        decide (strLower o.status = "matched" ∨ strLower o.status = "filled")
    else false) = false := by
    split_ifs with ht
    · cases hv : env.verify1 with
      | exn => rfl
      | ok oi =>
        cases oi with
        | none => rfl
        | some o =>
          have h1b := h1
          rw [hv] at h1b
          exact h1b
    · rfl
  rw [hv1]
  rw [if_neg (by simp)]
  cases hv2 : env.verify2 with
  | exn => exact absurd hv2 h2
  | ok oi2 =>
    cases oi2 with
    | none => rfl
    | some o2 =>
      have h3b := h3
      rw [hv2] at h3b
      simp only [reportsFill, decide_eq_false_iff_not] at h3b
      dsimp only
      rw [if_neg h3b]

theorem liveHandle_fill (env : PlaceEnv) (resp : OrderResp)
    (hg : ¬(¬resp.success = true ∧ resp.status ≠ "matched" ∧ resp.status ≠ "live"))
    (s : Bool) (st : String) (tx : List String)
    (h : liveHandle env resp = some (s, st, tx)) :
    s = true ∨ st = "matched" := by
  unfold liveHandle at h
  by_cases hl : resp.status = "live" ∧ ¬resp.success = true
  · rw [if_pos hl] at h
    dsimp only at h
    by_cases hid : resp.orderID.getD "" = ""
    · rw [if_pos hid] at h
      exact absurd h (by simp)
    · rw [if_neg hid] at h
      cases hget : env.liveGet with
      | exn =>
        rw [hget] at h
        exact absurd h (by simp)
      | ok oi =>
        rw [hget] at h
        dsimp only at h
        by_cases hfill : strLower (infoStatus oi) = "matched"
            ∨ strLower (infoStatus oi) = "filled"
        · rw [if_pos hfill, Option.some.injEq, Prod.mk.injEq, Prod.mk.injEq] at h
          exact Or.inl h.1.symm
        · rw [if_neg hfill] at h
          by_cases hcr : env.liveCancelRaises = true
          · rw [if_pos hcr] at h
            cases hrc : env.liveRecheck <;> rw [hrc] at h <;> exact absurd h (by simp)
          · rw [if_neg hcr] at h
            exact absurd h (by simp)
  · rw [if_neg hl] at h
    rw [Option.some.injEq, Prod.mk.injEq, Prod.mk.injEq] at h
    obtain ⟨hsv, hst, -⟩ := h
    push_neg at hl
    push_neg at hg
    by_cases hsucc : resp.success = true
    · exact Or.inl (hsv ▸ hsucc)
    · by_cases hm : resp.status = "matched"
      · exact Or.inr (hst ▸ hm)
      · exact absurd (hl (hg hsucc hm)) hsucc

end Btcv25

namespace Btcv25

theorem common_no_record (env : PlaceEnv) (market : BinaryMarket)
    (direction : String) (size_usd oracle_price confidence : ℚ)
    (resp : OrderResp) (exec_price : ℚ)
    (h1 : reportsFill env.verify1 = false) (h2 : env.verify2 ≠ Call.exn)
    (h3 : reportsFill env.verify2 = false) :
    placeOrderCommon env market direction size_usd oracle_price confidence
      resp exec_price = none := by
  unfold placeOrderCommon
  dsimp only
  split_ifs with hgd
  · rfl
  · cases hlv : liveHandle env resp with
    | none => rfl
    | some t =>
      obtain ⟨s, st, tx⟩ := t
      exact verifyAndRecord_none env market direction size_usd oracle_price confidence
        s st tx _ _ (liveHandle_fill env resp hgd s st tx hlv) h1 h2 h3

theorem gtc_no_record (cfg : ClientConfig) (env : PlaceEnv) (market : BinaryMarket)
    (direction : String) (size_usd oracle_price confidence exec_price : ℚ)
    (h1 : reportsFill env.verify1 = false) (h2 : env.verify2 ≠ Call.exn)
    (h3 : reportsFill env.verify2 = false) :
    producedTrade (placeGtcFallback cfg env market direction size_usd oracle_price
      confidence exec_price) = false := by
  unfold placeGtcFallback
  dsimp only
  cases env.gtcFallback with
  | exn => rfl
  | ok r =>
    cases r with
    | none => rfl
    | some resp0 =>
      dsimp only
      rw [common_no_record env market direction size_usd oracle_price confidence
        _ _ h1 h2 h3]
      rfl

/-- C1 (amended): whenever the first verification requery does not report
the order as matched or filled, and the second requery completes without
raising and also does not report matched or filled, place_order returns no
trade and appends nothing to the trade-record list — on every execution
path, including paths where the first requery raises or where the venue
response carried no transaction hashes.  (When the second requery raises,
the code deliberately records the trade anyway; see phantom_record_cx.) -/
theorem no_unverified_record (cfg : ClientConfig) (env : PlaceEnv)
    (market : BinaryMarket) (direction : String) (size_usd : ℚ)
    (priceArg : Option ℚ) (oracle_price confidence : ℚ)
    (records : List TradeRecord)
    (h1 : reportsFill env.verify1 = false)
    (h2 : env.verify2 ≠ Call.exn)
    (h3 : reportsFill env.verify2 = false) :
    producedTrade (placeOrder cfg env market direction size_usd priceArg
      oracle_price confidence) = false
    ∧ placeOrderRecords records cfg env market direction size_usd priceArg
      oracle_price confidence = records := by
  have hpt : producedTrade (placeOrder cfg env market direction size_usd priceArg
      oracle_price confidence) = false := by
    unfold placeOrder
    dsimp only
    split_ifs with hsz hinit hpx hmode
    any_goals rfl
    · cases env.fok with
      | thrown msg =>
        dsimp only
        split_ifs with hthin
        · exact gtc_no_record cfg env market direction size_usd oracle_price
            confidence _ h1 h2 h3
        · rfl
      | returned r =>
        cases r with
        | none => rfl
        | some resp =>
          dsimp only
          split_ifs with hthin
          · exact gtc_no_record cfg env market direction size_usd oracle_price
              confidence _ h1 h2 h3
          · rw [common_no_record env market direction size_usd oracle_price
              confidence resp _ h1 h2 h3]
            rfl
    · cases env.limitResp with
      | exn => rfl
      | ok r =>
        cases r with
        | none => rfl
        | some resp =>
          dsimp only
          rw [common_no_record env market direction size_usd oracle_price
            confidence resp _ h1 h2 h3]
          rfl
  refine ⟨hpt, ?_⟩
  unfold placeOrderRecords
  cases hres : placeOrder cfg env market direction size_usd priceArg
      oracle_price confidence with
  | initError => rfl
  | done r =>
    cases r with
    | none => rfl
    | some t =>
      rw [hres] at hpt
      simp [producedTrade] at hpt

end Btcv25

namespace Btcv25

def cfgLimit : ClientConfig := ⟨"limit", 2⟩

def cxMarket : BinaryMarket := ⟨"cid1", "q", "slug", "TUP", "TDOWN", 1/2, 1/2⟩

/-- Environment of the C1 counterexample: the limit order posts as matched
with a transaction hash, the first verification requery finds the order
still open, and the second requery raises. -/
def cxEnv : PlaceEnv :=
  { initOk := true, clobPrice := some (1/2),
    fok := FokResult.returned none, gtcFallback := Call.exn, gtcCancelRaises := false,
    limitResp := Call.ok (some ⟨true, "matched", some "OID1", "", ["0xabc"]⟩),
    liveGet := Call.exn, liveCancelRaises := false, liveRecheck := Call.exn,
    verify1 := Call.ok (some ⟨"open", none⟩), verify2 := Call.exn, now := 1000 }

/-- C1 counterexample: neither requery reports the order matched or filled —
the first returns status open and the second raises — yet place_order
records and returns a TradeRecord (the source logs the retry failure and
records anyway), refuting the claim for requery-error paths. -/
theorem phantom_record_cx :
    reportsFill cxEnv.verify1 = false
    ∧ cxEnv.verify2 = Call.exn
    ∧ placeOrder cfgLimit cxEnv cxMarket "up" 10 none 50000 (3/4)
      = PlaceResult.done (some (mkTradeRecord cxEnv cxMarket "up" 10 50000 (3/4)
          (1/2) "OID1" ["0xabc"])) := by
  refine ⟨by decide, rfl, ?_⟩
  have hlim : strLower "limit" = "limit" := by decide
  have hopen : strLower "open" = "open" := by decide
  norm_num [placeOrder, cfgLimit, cxEnv, cxMarket, derivedExecPrice,
    placeOrderCommon, liveHandle, verifyAndRecord, mkTradeRecord, infoStatus,
    infoTx, hlim, hopen]
  intro h
  exact absurd h (by decide)

/-- Environment of the C1 witness: both requeries complete and report the
order still open. -/
def wEnv : PlaceEnv := { cxEnv with verify2 := Call.ok (some ⟨"open", none⟩) }

/-- Witness for no_unverified_record at a concrete unverified fill. -/
theorem no_unverified_record_witness :
    reportsFill wEnv.verify1 = false
    ∧ wEnv.verify2 ≠ Call.exn
    ∧ reportsFill wEnv.verify2 = false
    ∧ producedTrade (placeOrder cfgLimit wEnv cxMarket "up" 10 none 50000 (3/4)) = false
    ∧ placeOrderRecords [] cfgLimit wEnv cxMarket "up" 10 none 50000 (3/4) = [] :=
  ⟨by decide, by simp [wEnv, cxEnv], by decide,
   (no_unverified_record cfgLimit wEnv cxMarket "up" 10 none 50000 (3/4) []
     (by decide) (by simp [wEnv, cxEnv]) (by decide)).1,
   (no_unverified_record cfgLimit wEnv cxMarket "up" 10 none 50000 (3/4) []
     (by decide) (by simp [wEnv, cxEnv]) (by decide)).2⟩

/-- C10: place_order returns None and leaves the trade-record list unchanged
when size_usd < 0.50 (checked before anything else), and likewise — once the
CLOB client is initialized — when the derived execution price (live
order-book price when truthy, else the passed or market quoted price) is
below 0.01 or above 0.99. -/
theorem small_or_bounded_no_order (cfg : ClientConfig) (env : PlaceEnv)
    (market : BinaryMarket) (direction : String) (size_usd : ℚ)
    (priceArg : Option ℚ) (oracle_price confidence : ℚ)
    (records : List TradeRecord) :
    (size_usd < 0.50 →
      placeOrder cfg env market direction size_usd priceArg oracle_price confidence
        = PlaceResult.done none
      ∧ placeOrderRecords records cfg env market direction size_usd priceArg
          oracle_price confidence = records)
    ∧ (env.initOk = true →
      (derivedExecPrice env market direction priceArg < 0.01
        ∨ 0.99 < derivedExecPrice env market direction priceArg) →
      placeOrder cfg env market direction size_usd priceArg oracle_price confidence
        = PlaceResult.done none
      ∧ placeOrderRecords records cfg env market direction size_usd priceArg
          oracle_price confidence = records) := by
  constructor
  · intro h
    have hres : placeOrder cfg env market direction size_usd priceArg oracle_price
        confidence = PlaceResult.done none := by
      unfold placeOrder
      rw [if_pos h]
    refine ⟨hres, ?_⟩
    unfold placeOrderRecords
    rw [hres]
  · intro hinit hb
    have hres : placeOrder cfg env market direction size_usd priceArg oracle_price
        confidence = PlaceResult.done none := by
      unfold placeOrder
      by_cases hsz : size_usd < 0.50
      · rw [if_pos hsz]
      · rw [if_neg hsz, if_neg (by simp [hinit])]
        dsimp only
        rw [if_pos hb]
    refine ⟨hres, ?_⟩
    unfold placeOrderRecords
    rw [hres]

def c10Env : PlaceEnv := { cxEnv with clobPrice := some (0.995 : ℚ) }

/-- Witness for small_or_bounded_no_order: a 25-cent order is refused, and a
live order-book price of 0.995 is out of bounds. -/
theorem small_or_bounded_witness :
    ((0.25 : ℚ) < 0.50
      ∧ placeOrder cfgLimit cxEnv cxMarket "up" 0.25 none 0 0 = PlaceResult.done none)
    ∧ (c10Env.initOk = true
      ∧ (0.99 : ℚ) < derivedExecPrice c10Env cxMarket "up" none
      ∧ placeOrder cfgLimit c10Env cxMarket "up" 10 none 0 0 = PlaceResult.done none
      ∧ placeOrderRecords [] cfgLimit c10Env cxMarket "up" 10 none 0 0 = []) := by
  have hb : derivedExecPrice c10Env cxMarket "up" none < 0.01
      ∨ (0.99 : ℚ) < derivedExecPrice c10Env cxMarket "up" none := by
    right
    norm_num [derivedExecPrice, c10Env, cxEnv, cxMarket]
  refine ⟨⟨by norm_num, ?_⟩, rfl, ?_, ?_, ?_⟩
  · exact (small_or_bounded_no_order cfgLimit cxEnv cxMarket "up" 0.25 none 0 0 []).1
      (by norm_num) |>.1
  · rcases hb with hb | hb
    · exact absurd hb (by norm_num [derivedExecPrice, c10Env, cxEnv, cxMarket])
    · exact hb
  · exact ((small_or_bounded_no_order cfgLimit c10Env cxMarket "up" 10 none 0 0 []).2
      rfl hb).1
  · exact ((small_or_bounded_no_order cfgLimit c10Env cxMarket "up" 10 none 0 0 []).2
      rfl hb).2

end Btcv25
